import Mathlib

/-!
Verification of the symbol-graph construction and incremental-maintenance
engine of the clangd-graph-rag repository, via a shallow embedding of the
relevant Python modules (`clangd_index_yaml_parser.py`,
`compilation_parser.py`, `source_span_provider.py`,
`clangd_call_graph_builder.py`, `graph_update_scope_builder.py`).

Python dictionaries are embedded as association lists (`List (String × α)`)
preserving insertion order; Python sets of edges as lists with membership
semantics; machine integers as `Int`/`Nat` (Python integers are unbounded,
so no wraparound is modelled); `None`-able values as `Option`.
-/

namespace ClangdGraphRag

/-- `RelativeLocation` from `clangd_index_yaml_parser.py`: a location without
the file component, zero-based coordinates. -/
structure RelativeLocation where
  start_line : Int
  start_column : Int
  end_line : Int
  end_column : Int
deriving DecidableEq

/-- `Location` from `clangd_index_yaml_parser.py`: file URI plus zero-based
start/end line and column. -/
structure Location where
  file_uri : String
  start_line : Int
  start_column : Int
  end_line : Int
  end_column : Int
deriving DecidableEq

/-- `Reference` from `clangd_index_yaml_parser.py`: bitmask kind, location,
optional container id (`None` when the index has no container field). -/
structure Reference where
  kind : Nat
  location : Location
  container_id : Option String
deriving DecidableEq

/-- `Symbol` from `clangd_index_yaml_parser.py` (the fields the four core
components read or write; the macro-expansion bookkeeping fields are never
touched by the embedded code and are omitted). `scope` is `Option String`
because the type-alias pass of `source_span_provider.py` tests
`sym.scope is None`. -/
structure Symbol where
  id : String
  name : String
  kind : String
  declaration : Option Location
  definition : Option Location
  references : List Reference
  scope : Option String
  language : String
  signature : String
  return_type : String
  type : String
  body_location : Option RelativeLocation
  parent_id : Option String
  aliased_canonical_spelling : Option String
  aliased_type_id : Option String
  aliased_type_kind : Option String
deriving DecidableEq

/-- `Symbol.is_function` from `clangd_index_yaml_parser.py`. -/
def Symbol.is_function (s : Symbol) : Bool :=
  s.kind ∈ ["Function", "InstanceMethod", "StaticMethod", "Constructor", "Destructor", "ConversionFunction"]

/-- `SourceSpan` from `compilation_parser.py`: parser-level span record with a
content-derived id and the id of the lexically enclosing span. -/
structure SourceSpan where
  name : String
  kind : String
  lang : String
  name_location : RelativeLocation
  body_location : RelativeLocation
  id : String
  parent_id : Option String
deriving DecidableEq

/-- Truthiness of a Python `Optional[str]`: `None` and `''` are falsy. -/
def optStrTruthy : Option String → Bool
  | none => false
  | some s => s ≠ ""

/-- Python's substring operator `sub in s` on strings. -/
def py_in_str (sub s : String) : Bool :=
  s.toList.tails.any (fun t => sub.toList.isPrefixOf t)

/-- Association-list lookup, mirroring Python `dict.get` (keys are unique in a
Python dict, so first match is the match). -/
def alookup (l : List (String × α)) (k : String) : Option α :=
  (l.find? (fun p => p.1 = k)).map (·.2)

/-- Association-list store, mirroring Python `d[k] = v`: overwrite in place if
the key exists, else append. -/
def astore (l : List (String × α)) (k : String) (v : α) : List (String × α) :=
  if l.any (fun p => p.1 = k) then
    l.map (fun p => if p.1 = k then (k, v) else p)
  else
    l ++ [(k, v)]

/-- Association-list bulk store, mirroring Python `d.update(other)`. -/
def aupdate (l other : List (String × α)) : List (String × α) :=
  other.foldl (fun acc kv => astore acc kv.1 kv.2) l

/-- Association-list delete, mirroring Python `del d[k]`. -/
def adelete (l : List (String × α)) (k : String) : List (String × α) :=
  l.filter (fun p => p.1 ≠ k)

/-- Arithmetic truncated to 32 bits, as in Python's `hashlib` internals. -/
def u32 (n : Nat) : Nat := n % 4294967296

/-- Left rotation of a 32-bit word. -/
def rotl32 (x s : Nat) : Nat := u32 (x * 2 ^ s + x / 2 ^ (32 - s))

/-- The 64 MD5 sine-derived round constants. -/
def md5K : List Nat := [
  3614090360, 3905402710, 606105819, 3250441966, 4118548399, 1200080426, 2821735955, 4249261313,
  1770035416, 2336552879, 4294925233, 2304563134, 1804603682, 4254626195, 2792965006, 1236535329,
  4129170786, 3225465664, 643717713, 3921069994, 3593408605, 38016083, 3634488961, 3889429448,
  568446438, 3275163606, 4107603335, 1163531501, 2850285829, 4243563512, 1735328473, 2368359562,
  4294588738, 2272392833, 1839030562, 4259657740, 2763975236, 1272893353, 4139469664, 3200236656,
  681279174, 3936430074, 3572445317, 76029189, 3654602809, 3873151461, 530742520, 3299628645,
  4096336452, 1126891415, 2878612391, 4237533241, 1700485571, 2399980690, 4293915773, 2240044497,
  1873313359, 4264355552, 2734768916, 1309151649, 4149444226, 3174756917, 718787259, 3951481745]

/-- The 64 MD5 per-round left-rotation amounts. -/
def md5S : List Nat := [
  7, 12, 17, 22, 7, 12, 17, 22, 7, 12, 17, 22, 7, 12, 17, 22,
  5, 9, 14, 20, 5, 9, 14, 20, 5, 9, 14, 20, 5, 9, 14, 20,
  4, 11, 16, 23, 4, 11, 16, 23, 4, 11, 16, 23, 4, 11, 16, 23,
  6, 10, 15, 21, 6, 10, 15, 21, 6, 10, 15, 21, 6, 10, 15, 21]

/-- MD5 padding: a 0x80 byte, zeros to 56 mod 64, then the bit length as eight
little-endian bytes. -/
def md5Pad (msg : List Nat) : List Nat :=
  let bitLen := msg.length * 8
  let withOne := msg ++ [128]
  let zeros := (64 - (withOne.length + 8) % 64) % 64
  withOne ++ List.replicate zeros 0 ++ (List.range 8).map (fun i => bitLen / 2 ^ (8 * i) % 256)

/-- One MD5 round: `st` is the (a, b, c, d) state, `w` the 16 message words of
the current chunk, `i` the round index. -/
def md5Round (w : List Nat) (st : Nat × Nat × Nat × Nat) (i : Nat) : Nat × Nat × Nat × Nat :=
  let (a, b, c, d) := st
  let fg : Nat × Nat :=
    if i < 16 then ((b &&& c) ||| ((4294967295 - b) &&& d), i)
    else if i < 32 then ((d &&& b) ||| ((4294967295 - d) &&& c), (5 * i + 1) % 16)
    else if i < 48 then (b ^^^ c ^^^ d, (3 * i + 5) % 16)
    else (c ^^^ (b ||| (4294967295 - d)), 7 * i % 16)
  let f := u32 (fg.1 + a + md5K.getD i 0 + w.getD fg.2 0)
  (d, u32 (b + rotl32 f (md5S.getD i 0)), b, c)

/-- Process one 64-byte MD5 chunk, updating the running state. -/
def md5Chunk (st : Nat × Nat × Nat × Nat) (chunk : List Nat) : Nat × Nat × Nat × Nat :=
  let w := (List.range 16).map (fun j =>
    chunk.getD (4 * j) 0 + chunk.getD (4 * j + 1) 0 * 256 +
    chunk.getD (4 * j + 2) 0 * 65536 + chunk.getD (4 * j + 3) 0 * 16777216)
  let r := (List.range 64).foldl (md5Round w) st
  (u32 (st.1 + r.1), u32 (st.2.1 + r.2.1), u32 (st.2.2.1 + r.2.2.1), u32 (st.2.2.2 + r.2.2.2))

/-- MD5 digest of a byte list, as 16 output bytes. -/
def md5Bytes (msg : List Nat) : List Nat :=
  let padded := md5Pad msg
  let st := (List.range (padded.length / 64)).foldl
    (fun st i => md5Chunk st ((padded.drop (64 * i)).take 64)) (1732584193, 4023233417, 2562383102, 271733878)
  [st.1, st.2.1, st.2.2.1, st.2.2.2].flatMap (fun x =>
    [x % 256, x / 256 % 256, x / 65536 % 256, x / 16777216 % 256])

/-- One lowercase hexadecimal digit. -/
def hexDigit (n : Nat) : Char :=
  if n < 10 then Char.ofNat (48 + n) else Char.ofNat (87 + n)

/-- Lowercase hex string of a byte list, as Python's `hexdigest`. -/
def hexOfBytes (bs : List Nat) : String :=
  String.mk (bs.flatMap (fun b => [hexDigit (b / 16), hexDigit (b % 16)]))

/-- Python `hashlib.md5(s.encode()).hexdigest()`. -/
def md5hex (s : String) : String := hexOfBytes (md5Bytes (s.toUTF8.toList.map UInt8.toNat))

/-- `CompilationParser.make_symbol_key` from `compilation_parser.py`:
`f"{name}::{file_uri}:{line}:{col}"`. -/
def make_symbol_key (name file_uri : String) (line col : Int) : String :=
  name ++ "::" ++ file_uri ++ ":" ++ toString line ++ ":" ++ toString col

/-- `CompilationParser.make_synthetic_id` from `compilation_parser.py`:
`hashlib.md5(key.encode()).hexdigest()`. -/
def make_synthetic_id (key : String) : String := md5hex key

/-- `_ClangWorkerImpl._process_generic_node` from `compilation_parser.py`: the
`SourceSpan` recorded for an AST definition node, given the node's spelling,
its file URI, its cursor-kind name, the translation unit's language, the
zero-based name location and body extent, and the resolved semantic parent id.
The span's id is the MD5 of the node key built from the name, file URI and
name start position. -/
def process_generic_node (name file_uri kindName lang : String)
    (name_sl name_sc body_sl body_sc body_el body_ec : Int)
    (parent_id : Option String) : SourceSpan :=
  let node_key := make_symbol_key name file_uri name_sl name_sc
  { name := name
    kind := kindName
    lang := lang
    name_location := ⟨name_sl, name_sc, name_sl, name_sc + name.length⟩
    body_location := ⟨body_sl, body_sc, body_el, body_ec⟩
    id := make_synthetic_id node_key
    parent_id := parent_id }

/-- `SourceSpanProvider._span_is_within` from `source_span_provider.py`:
check whether the `inner` span's body lies inside the `outer` span's body. -/
def span_is_within (inner outer : SourceSpan) : Bool :=
  let s1 := inner.body_location
  let e1 := outer.body_location
  if s1.start_line = e1.start_line ∧ s1.start_column = e1.start_column ∧
     s1.end_line = e1.end_line ∧ s1.end_column = e1.end_column then
    false
  else if inner.kind ≠ "Variable" ∧ e1.start_line = e1.end_line then
    false
  else if s1.start_line > e1.start_line ∨
          (s1.start_line = e1.start_line ∧ s1.start_column ≥ e1.start_column) then
    if s1.end_line < e1.end_line ∨
       (s1.end_line = e1.end_line ∧ s1.end_column ≤ e1.end_column) then
      true
    else
      false
  else
    false

/-- `SymbolParser` state from `clangd_index_yaml_parser.py`: the in-memory
symbol table (a dict keyed by symbol id, embedded as an insertion-ordered
association list), its callable sub-index `functions`, the format-detection
flags, and the relation pair lists. -/
structure SymbolParser where
  symbols : List (String × Symbol)
  functions : List (String × Symbol)
  has_container_field : Bool
  has_call_kind : Bool
  inheritance_relations : List (String × String)
  override_relations : List (String × String)
deriving DecidableEq

/-- Loop body of `ClangdCallGraphExtractorWithContainer.extract_call_relationships`
from `clangd_call_graph_builder.py`: the edge emitted for one reference of
`callee`, if any. The reference must be truthy-container (`container_id` not
`None` and not empty), non-sentinel, of call kind 20 or 28, and the container
id must resolve to a symbol of the table that `is_function()`. -/
def container_edge (p : SymbolParser) (callee : Symbol) (ref : Reference) :
    Option (String × String) :=
  match ref.container_id with
  | none => none
  | some cid =>
    if cid ≠ "" ∧ cid ≠ "0000000000000000" ∧ (ref.kind = 20 ∨ ref.kind = 28) then
      match alookup p.symbols cid with
      | some caller => if caller.is_function then some (cid, callee.id) else none
      | none => none
    else none

/-- `ClangdCallGraphExtractorWithContainer.extract_call_relationships` from
`clangd_call_graph_builder.py`, as the list of (caller_id, callee_id) pairs
added to the caller-to-callees map (the Python map of sets collapses
duplicates; edge membership below is list membership). The bidirectional
variant adds exactly the swapped pairs to the callee-to-callers map. -/
def extract_with_container (p : SymbolParser) : List (String × String) :=
  (p.symbols.map Prod.snd).flatMap (fun callee =>
    if callee.references = [] ∨ callee.is_function = false then []
    else callee.references.filterMap (container_edge p callee))

/-- `ClangdCallGraphExtractorWithoutContainer._is_location_within_function_body`
from `clangd_call_graph_builder.py`. -/
def is_location_within_function_body (call_loc : Location) (body_loc : RelativeLocation)
    (body_file_uri : String) : Bool :=
  if call_loc.file_uri ≠ body_file_uri then false
  else
    decide ((call_loc.start_line > body_loc.start_line ∨
        (call_loc.start_line = body_loc.start_line ∧
          call_loc.start_column ≥ body_loc.start_column)) ∧
      (call_loc.end_line < body_loc.end_line ∨
        (call_loc.end_line = body_loc.end_line ∧ call_loc.end_column ≤ body_loc.end_column)))

/-- Stable insertion of `a` into a sorted list: `a` is placed before the first
element it compares ≤ to, so equal-key elements keep their original order. -/
def stableInsert (le : α → α → Bool) (a : α) : List α → List α
  | [] => [a]
  | b :: t => if le a b then a :: b :: t else b :: stableInsert le a t

/-- Stable sort (insertion sort). Python's `list.sort` is stable, and all
stable sorts under the same comparison produce the identical list, so this is
the list `list.sort(key=...)` computes. -/
def stableSort (le : α → α → Bool) (l : List α) : List α :=
  l.foldr (stableInsert le) []

/-- The per-file spatial index `file_to_function_bodies_index[file_uri]` built
by `ClangdCallGraphExtractorWithoutContainer.extract_call_relationships`: the
(body_location, symbol) pairs of all indexed functions that carry a body and a
definition in `file_uri`, sorted by body start line (Python's stable sort). -/
def file_function_bodies (p : SymbolParser) (file_uri : String) :
    List (RelativeLocation × Symbol) :=
  stableSort (fun a b => decide (a.1.start_line ≤ b.1.start_line))
    ((p.functions.map Prod.snd).filterMap (fun f =>
      match f.body_location, f.definition with
      | some body, some defn => if defn.file_uri = file_uri then some (body, f) else none
      | _, _ => none))

/-- The call-detection kinds chosen by the spatial extractor: `[20, 28]` for
indexes that record call kinds, `[4, 12]` otherwise. -/
def spatial_valid_call_kinds (p : SymbolParser) : List Nat :=
  if p.has_call_kind then [20, 28] else [4, 12]

/-- Loop body of `ClangdCallGraphExtractorWithoutContainer.extract_call_relationships`:
the edge emitted for one reference of `callee`, if any — the first body in the
reference file's sorted candidate list that contains the reference location
(the Python loop's `break`), none when no candidate contains it. -/
def spatial_edge (p : SymbolParser) (callee : Symbol) (ref : Reference) :
    Option (String × String) :=
  if ref.kind ∈ spatial_valid_call_kinds p then
    match (file_function_bodies p ref.location.file_uri).find?
        (fun bc => is_location_within_function_body ref.location bc.1 ref.location.file_uri) with
    | some bc => some (bc.2.id, callee.id)
    | none => none
  else none

/-- `ClangdCallGraphExtractorWithoutContainer.extract_call_relationships` from
`clangd_call_graph_builder.py`, as the list of (caller_id, callee_id) pairs
added to the caller-to-callees map. -/
def extract_without_container (p : SymbolParser) : List (String × String) :=
  (p.symbols.map Prod.snd).flatMap (fun callee =>
    if callee.references = [] ∨ callee.is_function = false then []
    else callee.references.filterMap (spatial_edge p callee))

/-- Python `str.startswith`. -/
def py_startswith (s pre : String) : Bool :=
  pre.toList.isPrefixOf s.toList

/-- Hexadecimal digit predicate for percent-decoding. -/
def isHexCh (c : Char) : Bool :=
  c.isDigit || ('a' ≤ c && c ≤ 'f') || ('A' ≤ c && c ≤ 'F')

/-- Value of a hexadecimal digit. -/
def hexChVal (c : Char) : Nat :=
  if c.isDigit then c.toNat - 48
  else if 'a' ≤ c ∧ c ≤ 'f' then c.toNat - 87
  else c.toNat - 55

/-- Percent-decoding on a character list (`urllib.parse.unquote`; the Python
function additionally reassembles multi-byte UTF-8 sequences, which coincides
with this single-byte decoding on the ASCII file paths this system builds). -/
def unquote_chars : List Char → List Char
  | [] => []
  | '%' :: h1 :: h2 :: t =>
    if isHexCh h1 && isHexCh h2 then
      Char.ofNat (hexChVal h1 * 16 + hexChVal h2) :: unquote_chars t
    else
      '%' :: unquote_chars (h1 :: h2 :: t)
  | c :: t => c :: unquote_chars t

/-- `urllib.parse.unquote` as used on file URIs. -/
def unquote (s : String) : String := String.mk (unquote_chars s.toList)

/-- `urlparse(uri).path` for the `file://`-scheme URIs this system constructs
(every URI in play is built as `f"file://{abs_path}"`). -/
def urlparse_path (uri : String) : String :=
  if py_startswith uri "file://" then String.mk (uri.toList.drop 7) else uri

/-- `unquote(urlparse(loc.file_uri).path)`, the path extraction both
project-path checks of `source_span_provider.py` perform. -/
def uri_to_path (uri : String) : String := unquote (urlparse_path uri)

/-- Python `sym.definition or sym.declaration` (a `Location` object is always
truthy, so this is the definition when present, else the declaration). -/
def main_loc (sym : Symbol) : Option Location :=
  match sym.definition with
  | some l => some l
  | none => sym.declaration

/-- `SourceSpanProvider._filter_symbols_by_project_path` from
`source_span_provider.py`: keep a symbol exactly when it has a location and
either its decoded path starts with the project path or `sym.kind in
("Namespace")` holds — which in Python is a *substring* test of the string
`"Namespace"`, since `("Namespace")` is not a tuple. Collecting
`keys_to_remove` and then deleting them equals this filter. -/
def filter_symbols_by_project_path (project_path : String)
    (symbols : List (String × Symbol)) : List (String × Symbol) :=
  symbols.filter (fun kv =>
    match main_loc kv.2 with
    | some loc =>
      py_startswith (uri_to_path loc.file_uri) project_path || py_in_str kv.2.kind "Namespace"
    | none => false)

/-- Per-symbol body of
`SourceSpanProvider._assign_parent_ids_from_symbol_ref_container`: the first
reference located at the symbol's own declaration/definition whose kind has a
declaration-or-definition bit (`kind & 3`) but no plain-reference bit
(`kind & 4`) and whose `container_id` differs from the sentinel (a `None`
container also differs, as in Python) donates its `container_id` — with no
self-id check — as the symbol's `parent_id`. -/
def ref_container_step (sym : Symbol) : Symbol :=
  match main_loc sym with
  | none => sym
  | some loc =>
    match sym.references.find? (fun ref =>
      decide (ref.location = loc) && decide (ref.kind &&& 3 ≠ 0) &&
      decide (ref.kind &&& 4 = 0) &&
      decide (ref.container_id ≠ some "0000000000000000")) with
    | some ref => { sym with parent_id := ref.container_id }
    | none => sym

/-- `SourceSpanProvider._assign_parent_ids_from_symbol_ref_container`, over the
whole table. -/
def assign_parent_ids_from_symbol_ref_container
    (symbols : List (String × Symbol)) : List (String × Symbol) :=
  symbols.map (fun kv => (kv.1, ref_container_step kv.2))

/-- Lookup `file_span_data_copy[file].get(key)` over the file → (key → span)
tables handed over by the compilation manager (a missing file behaves as an
empty dict, as with the parser's defaultdict). -/
def span_lookup (data : List (String × List (String × SourceSpan))) (file key : String) :
    Option SourceSpan :=
  match alookup data file with
  | some m => alookup m key
  | none => none

/-- `del file_span_data_copy[file][key]`. -/
def span_delete (data : List (String × List (String × SourceSpan))) (file key : String) :
    List (String × List (String × SourceSpan)) :=
  data.map (fun fe => if fe.1 = file then (fe.1, adelete fe.2 key) else fe)

/-- Pass 1 of `SourceSpanProvider._match_and_enrich_with_source_spans`,
processing the symbols in table order while threading the remap table and the
shrinking copy of the span data: a located symbol whose
(name, file, start line, start column) key finds a span receives that span's
`body_location`, the span id is remapped to the symbol id, and the span is
removed from the copy. -/
def match_pass1 (remaining : List (String × List (String × SourceSpan)))
    (remap : List (String × String)) :
    List (String × Symbol) →
      List (String × Symbol) × List (String × String) ×
        List (String × List (String × SourceSpan))
  | [] => ([], remap, remaining)
  | kv :: t =>
    match main_loc kv.2 with
    | none =>
      let r := match_pass1 remaining remap t
      (kv :: r.1, r.2)
    | some loc =>
      let key := make_symbol_key kv.2.name loc.file_uri loc.start_line loc.start_column
      match span_lookup remaining loc.file_uri key with
      | none =>
        let r := match_pass1 remaining remap t
        (kv :: r.1, r.2)
      | some span =>
        let r := match_pass1 (span_delete remaining loc.file_uri key)
          (astore remap span.id kv.1) t
        ((kv.1, { kv.2 with body_location := some span.body_location }) :: r.1, r.2)

/-- `SourceSpanProvider._create_synthetic_symbol`: the minimal `Symbol` built
for a span with no index entry (declaration and definition at the span's name
location; empty scope; the span's id, kind, language, body and resolved
parent). -/
def make_synthetic_symbol (span : SourceSpan) (file_uri : String)
    (parent_id : Option String) : Symbol :=
  { id := span.id, name := span.name, kind := span.kind,
    declaration := some ⟨file_uri, span.name_location.start_line, span.name_location.start_column,
      span.name_location.end_line, span.name_location.end_column⟩,
    definition := some ⟨file_uri, span.name_location.start_line, span.name_location.start_column,
      span.name_location.end_line, span.name_location.end_column⟩,
    references := [], scope := some "", language := span.lang,
    signature := "", return_type := "", type := "",
    body_location := some span.body_location, parent_id := parent_id,
    aliased_canonical_spelling := none, aliased_type_id := none, aliased_type_kind := none }

/-- Inner loop of pass 2 of `_match_and_enrich_with_source_spans` for one
file's leftover spans: each becomes a synthetic symbol keyed by the span id
(parent resolved through the remap table), and the span id is self-mapped. -/
def match_pass2_file (file_uri : String) :
    List (String × SourceSpan) → List (String × Symbol) → List (String × String) →
      List (String × Symbol) × List (String × String)
  | [], synths, remap => (synths, remap)
  | kspan :: t, synths, remap =>
    let span := kspan.2
    let parent_id : Option String :=
      match span.parent_id with
      | none => none
      | some pid => some ((alookup remap pid).getD pid)
    match_pass2_file file_uri t
      (astore synths span.id (make_synthetic_symbol span file_uri parent_id))
      (astore remap span.id span.id)

/-- Pass 2 of `_match_and_enrich_with_source_spans` over all leftover files,
threading the synthetic-symbol dict and the remap table. -/
def match_pass2_go :
    List (String × List (String × SourceSpan)) → List (String × Symbol) →
      List (String × String) → List (String × Symbol) × List (String × String)
  | [], synths, remap => (synths, remap)
  | fe :: rest, synths, remap =>
    let r := match_pass2_file fe.1 fe.2 synths remap
    match_pass2_go rest r.1 r.2

/-- Pass 2 of `_match_and_enrich_with_source_spans`. -/
def match_pass2 (remaining : List (String × List (String × SourceSpan)))
    (remap : List (String × String)) :
    List (String × Symbol) × List (String × String) :=
  match_pass2_go remaining [] remap

/-- `SourceSpanProvider._match_and_enrich_with_source_spans`: pass 1 matching,
pass 2 synthesis, and `symbols.update(synthetic_symbols)`; returns the updated
table and the remap table. -/
def match_and_enrich (spans : List (String × List (String × SourceSpan)))
    (symbols : List (String × Symbol)) :
    List (String × Symbol) × List (String × String) :=
  let r1 := match_pass1 spans [] symbols
  let r2 := match_pass2 r1.2.2 r1.2.1
  (aupdate r1.1 r2.1, r2.2)

/-- `SourceSpanProvider._find_innermost_container`: the candidate spans whose
body contains the probe, reduced by Python's `min` with key
`end_line - start_line` (the first minimal candidate wins). -/
def find_innermost_container (span_tree : List (String × SourceSpan))
    (span : SourceSpan) : Option SourceSpan :=
  match (span_tree.map Prod.snd).filter (fun node => span_is_within span node) with
  | [] => none
  | c :: rest => some (rest.foldl (fun best n =>
      if n.body_location.end_line - n.body_location.start_line <
         best.body_location.end_line - best.body_location.start_line then n else best) c)

/-- The resolution tail of `SourceSpanProvider._assign_parent_ids_lexically`:
the candidate parent is remapped (`get(parent_synth_id, parent_synth_id)`,
where a `None` candidate stays `None`); a resolved parent equal to the
symbol's own id is rejected and skipped; otherwise it is assigned. -/
def resolve_and_assign (remap : List (String × String)) (sym : Symbol)
    (parent_synth_id : Option String) : Symbol :=
  let parent_id : Option String :=
    match parent_synth_id with
    | none => none
    | some pid => some ((alookup remap pid).getD pid)
  if parent_id = some sym.id then sym
  else { sym with parent_id := parent_id }

/-- Per-symbol body of `SourceSpanProvider._assign_parent_ids_lexically`:
symbols with a truthy parent, without a location, or outside the project path
are skipped; bare-name kinds (and bodiless constructor-like kinds) probe the
span forest with a degenerate Variable span for their innermost container;
the remaining kinds (except `TypeAlias` and definitionless `Function`s) take
the parent of their own matched span; the candidate then goes through
`resolve_and_assign`. -/
def lexical_step (project_path : String)
    (spans : List (String × List (String × SourceSpan)))
    (remap : List (String × String)) (sym : Symbol) : Symbol :=
  if optStrTruthy sym.parent_id then sym
  else
    match main_loc sym with
    | none => sym
    | some loc =>
      if ¬ py_startswith (uri_to_path loc.file_uri) project_path then sym
      else if sym.kind ∈ ["Field", "Variable", "EnumConstant", "StaticProperty"] ∨
          (sym.kind ∈ ["Constructor", "Destructor", "InstanceMethod", "ConversionFunction"] ∧
            sym.body_location = none) then
        let field_name : RelativeLocation :=
          ⟨loc.start_line, loc.start_column, loc.end_line, loc.end_column⟩
        let field_span : SourceSpan :=
          ⟨sym.name, "Variable", sym.language, field_name, field_name, "", some ""⟩
        let span_tree := (alookup spans loc.file_uri).getD []
        match find_innermost_container span_tree field_span with
        | some container => resolve_and_assign remap sym (some container.id)
        | none => resolve_and_assign remap sym none
      else if sym.kind = "TypeAlias" ∨ (sym.kind = "Function" ∧ sym.definition = none) then
        sym
      else
        let key := make_symbol_key sym.name loc.file_uri loc.start_line loc.start_column
        let span_tree := (alookup spans loc.file_uri).getD []
        if span_tree = [] then sym
        else
          match alookup span_tree key with
          | none => sym
          | some span =>
            match span.parent_id with
            | none => sym
            | some psid =>
              if psid = "" then sym
              else resolve_and_assign remap sym (some psid)

/-- `SourceSpanProvider._assign_parent_ids_lexically`, over the whole table
(the pass reads the original span data and the completed remap table, and
writes only the processed symbol, so it is a per-entry map). -/
def assign_parent_ids_lexically (project_path : String)
    (spans : List (String × List (String × SourceSpan)))
    (remap : List (String × String)) (symbols : List (String × Symbol)) :
    List (String × Symbol) :=
  symbols.map (fun kv => (kv.1, lexical_step project_path spans remap kv.2))

/-- Modelled from the spec: `TypeAliasSpan` is produced by the excluded
upstream AST/span parser (`compilation_parser.py` in the embedded version does
not define it); its fields are exactly those `source_span_provider.py` reads —
a USR-derived id, name, scope, language, file URI, name and body locations,
lexical parent id, and the aliased type's canonical spelling, id and kind. -/
structure TypeAliasSpan where
  id : String
  name : String
  scope : Option String
  lang : String
  file_uri : String
  name_location : RelativeLocation
  body_location : RelativeLocation
  parent_id : Option String
  aliased_canonical_spelling : String
  aliased_type_id : String
  aliased_type_kind : String
deriving DecidableEq

/-- The enrichment a matched `TypeAlias` symbol receives in the first pass of
`SourceSpanProvider._enrich_with_type_alias_data`: the aliased-type fields and
the body location are copied (the aliased type id resolved through the remap
table); a parent is taken from the span only when the symbol has none and the
span's is truthy; a `None` scope is filled from the span. -/
def enrich_matched_type_alias (remap : List (String × String)) (sym : Symbol)
    (tas : TypeAliasSpan) : Symbol :=
  let sym1 : Symbol := { sym with
    aliased_canonical_spelling := some tas.aliased_canonical_spelling,
    aliased_type_id := some ((alookup remap tas.aliased_type_id).getD tas.aliased_type_id),
    aliased_type_kind := some tas.aliased_type_kind,
    body_location := some tas.body_location }
  let sym2 : Symbol :=
    match tas.parent_id with
    | some pid =>
      if sym1.parent_id = none ∧ pid ≠ "" then
        { sym1 with parent_id := some ((alookup remap pid).getD pid) }
      else sym1
    | none => sym1
  if sym2.scope = none then { sym2 with scope := tas.scope } else sym2

/-- First pass of `SourceSpanProvider._enrich_with_type_alias_data` over the
symbols in table order, threading the remap table and the shrinking unmatched
span dict: each `TypeAlias` symbol whose id keys an alias span is enriched,
the span id is remapped to the symbol id and the span marked processed. -/
def type_alias_pass1 (remap : List (String × String))
    (unmatched : List (String × TypeAliasSpan)) :
    List (String × Symbol) →
      List (String × Symbol) × List (String × String) × List (String × TypeAliasSpan)
  | [] => ([], remap, unmatched)
  | kv :: t =>
    if kv.2.kind ≠ "TypeAlias" then
      let r := type_alias_pass1 remap unmatched t
      (kv :: r.1, r.2)
    else
      match alookup unmatched kv.1 with
      | none =>
        let r := type_alias_pass1 remap unmatched t
        (kv :: r.1, r.2)
      | some tas =>
        let r := type_alias_pass1 (astore remap tas.id kv.1) (adelete unmatched kv.1) t
        ((kv.1, enrich_matched_type_alias remap kv.2 tas) :: r.1, r.2)

/-- `SourceSpanProvider._create_synthetic_type_alias_symbol`. -/
def create_synthetic_type_alias_symbol (remap : List (String × String))
    (tas : TypeAliasSpan) : Symbol :=
  { id := tas.id, name := tas.name, kind := "TypeAlias",
    declaration := some ⟨tas.file_uri, tas.name_location.start_line,
      tas.name_location.start_column, tas.name_location.end_line, tas.name_location.end_column⟩,
    definition := some ⟨tas.file_uri, tas.name_location.start_line,
      tas.name_location.start_column, tas.name_location.end_line, tas.name_location.end_column⟩,
    references := [], scope := tas.scope, language := tas.lang,
    signature := "", return_type := "", type := "",
    body_location := some tas.body_location,
    parent_id :=
      (match tas.parent_id with
       | none => none
       | some pid => some ((alookup remap pid).getD pid)),
    aliased_canonical_spelling := some tas.aliased_canonical_spelling,
    aliased_type_id := some ((alookup remap tas.aliased_type_id).getD tas.aliased_type_id),
    aliased_type_kind := some tas.aliased_type_kind }

/-- Second pass of `_enrich_with_type_alias_data`, threading the synthetic
dict and remap table: every still-unmatched alias span becomes a synthetic
`TypeAlias` symbol keyed by its id, with the span id mapped to itself. -/
def type_alias_pass2_go :
    List (String × TypeAliasSpan) → List (String × Symbol) → List (String × String) →
      List (String × Symbol) × List (String × String)
  | [], synths, remap => (synths, remap)
  | te :: rest, synths, remap =>
    let new_sym := create_synthetic_type_alias_symbol remap te.2
    type_alias_pass2_go rest (astore synths new_sym.id new_sym)
      (astore remap te.2.id new_sym.id)

/-- Second pass of `_enrich_with_type_alias_data`. -/
def type_alias_pass2 (remap : List (String × String))
    (unmatched : List (String × TypeAliasSpan)) :
    List (String × Symbol) × List (String × String) :=
  type_alias_pass2_go unmatched [] remap

/-- `SourceSpanProvider._enrich_with_type_alias_data`: both passes followed by
`symbols.update(synthetic_type_alias_symbols)` (an empty alias table makes the
whole pass a no-op, as with the source's early return). -/
def enrich_with_type_alias_data (type_alias_spans : List (String × TypeAliasSpan))
    (remap : List (String × String)) (symbols : List (String × Symbol)) :
    List (String × Symbol) × List (String × String) :=
  let r1 := type_alias_pass1 remap type_alias_spans symbols
  let r2 := type_alias_pass2 r1.2.1 r1.2.2
  (aupdate r1.1 r2.1, r2.2)

/-- One static call injected by `SourceSpanProvider._enrich_with_static_calls`:
a synthetic spelled-call reference (kind 28, dummy location, the caller as
container) appended to the callee's references. -/
def append_static_ref (caller : String) (sym : Symbol) : Symbol :=
  { sym with references := sym.references ++ [⟨28, ⟨"", 0, 0, 0, 0⟩, some caller⟩] }

/-- One (caller, callee) pair's effect on one table entry: the callee's entry
receives the synthetic reference, all others are untouched. -/
def static_step (cc : String × String) (key : String) (sym : Symbol) : Symbol :=
  if key = cc.2 then append_static_ref cc.1 sym else sym

/-- `SourceSpanProvider._enrich_with_static_calls`: for each (caller, callee)
pair whose callee id is in the table, append the synthetic reference (a keyed
in-place update; absent callees leave the table unchanged). -/
def enrich_with_static_calls : List (String × String) → List (String × Symbol) →
    List (String × Symbol)
  | [], symbols => symbols
  | cc :: rest, symbols =>
    enrich_with_static_calls rest (symbols.map (fun kv => (kv.1, static_step cc kv.1 kv.2)))

/-- The inputs `SourceSpanProvider` reads from the compilation manager, plus
the project path. -/
structure CompilationData where
  project_path : String
  source_spans : List (String × List (String × SourceSpan))
  type_alias_spans : List (String × TypeAliasSpan)
  static_calls : List (String × String)
deriving DecidableEq

/-- `SourceSpanProvider.enrich_symbols_with_span`: the full enrichment
pipeline — project filtering, reference-container parents, span matching with
synthetic-symbol creation, lexical parent assignment, the type-alias pass, and
static-call injection. -/
def enrich_symbols_with_span (cd : CompilationData)
    (symbols : List (String × Symbol)) : List (String × Symbol) :=
  let s1 := filter_symbols_by_project_path cd.project_path symbols
  let s2 := assign_parent_ids_from_symbol_ref_container s1
  let r3 := match_and_enrich cd.source_spans s2
  let s4 := assign_parent_ids_lexically cd.project_path cd.source_spans r3.2 r3.1
  let r5 := enrich_with_type_alias_data cd.type_alias_spans r3.2 s4
  enrich_with_static_calls cd.static_calls r5.1

/-- Children lookup in the containment graph that
`GraphUpdateScopeBuilder._create_sufficient_subset` (from
`graph_update_scope_builder.py`) builds in one pass
(`if sym.parent_id: containment_graph[sym.parent_id]['children'].add(sym.id)`):
the children of `x` are the ids of the symbols whose truthy `parent_id` is
`x`. -/
def containment_children (p : SymbolParser) (x : String) : List String :=
  (p.symbols.filter (fun kv =>
    optStrTruthy kv.2.parent_id && kv.2.parent_id == some x)).map (fun kv => kv.2.id)

/-- `GraphUpdateScopeBuilder._build_scope_maps`: the qualified namespace name →
id map, built in one pass over the symbol values (`scope + name + '::'`;
later symbols overwrite earlier ones on a key collision, as in a Python dict;
index-parsed namespace symbols always carry a string scope, defaulted here for
the `None` case Python would reject with a TypeError). -/
def build_scope_maps (p : SymbolParser) : List (String × String) :=
  p.symbols.foldl (fun m kv =>
    if kv.2.kind = "Namespace" then
      astore m ((kv.2.scope.getD "") ++ kv.2.name ++ "::") kv.2.id
    else m) []

/-- Base-class lookup in the inheritance graph of `_create_sufficient_subset`
(`inheritance_graph[derived_id]['parents']`). -/
def inheritance_parents (p : SymbolParser) (x : String) : List String :=
  (p.inheritance_relations.filter (fun bd => bd.2 == x)).map (fun bd => bd.1)

/-- Derived-class lookup in the inheritance graph
(`inheritance_graph[base_id]['children']`). -/
def inheritance_children (p : SymbolParser) (x : String) : List String :=
  (p.inheritance_relations.filter (fun bd => bd.1 == x)).map (fun bd => bd.2)

/-- `override_graph[base_id]['overridden']` of `_create_sufficient_subset`. -/
def override_overridden (p : SymbolParser) (x : String) : List String :=
  (p.override_relations.filter (fun bd => bd.1 == x)).map (fun bd => bd.2)

/-- `override_graph[derived_id]['overriding']` of `_create_sufficient_subset`. -/
def override_overriding (p : SymbolParser) (x : String) : List String :=
  (p.override_relations.filter (fun bd => bd.2 == x)).map (fun bd => bd.1)

/-- The call edges `_create_sufficient_subset` precomputes: the container
extractor's output when the index has a container field, otherwise empty maps
(the source logs that call-graph expansion will be incomplete). -/
def subset_call_edges (p : SymbolParser) : List (String × String) :=
  if p.has_container_field then extract_with_container p else []

/-- `caller_to_callees.get(x, set())` over the precomputed call edges. -/
def callees_of (p : SymbolParser) (x : String) : List String :=
  ((subset_call_edges p).filter (fun e => e.1 == x)).map (fun e => e.2)

/-- `callee_to_callers.get(x, set())` over the precomputed call edges. -/
def callers_of (p : SymbolParser) (x : String) : List String :=
  ((subset_call_edges p).filter (fun e => e.2 == x)).map (fun e => e.1)

/-- All one-hop neighbor ids the expansion loop of `_create_sufficient_subset`
gathers for one seed symbol, in source order: calls down and up, truthy
lexical parent, semantic namespace parent via the scope map, inheritance up
and down, overrides both directions, lexical containment children. -/
def direct_neighbor_ids (p : SymbolParser) (sid : String) (sym : Symbol) : List String :=
  callees_of p sid ++ callers_of p sid ++
  (match sym.parent_id with
   | some pid => if pid ≠ "" then [pid] else []
   | none => []) ++
  (match sym.scope with
   | some sc => if sc ≠ "" then (alookup (build_scope_maps p) sc).toList else []
   | none => []) ++
  inheritance_parents p sid ++ inheritance_children p sid ++
  override_overridden p sid ++ override_overriding p sid ++
  containment_children p sid

/-- `add_symbol` of `_create_sufficient_subset`: a neighbor id is added to the
collected set when it is present in the full symbol table (ids referenced by a
relation but absent are skipped with a debug note) and not already collected. -/
def add_neighbor (p : SymbolParser) (acc : List String) (nid : String) : List String :=
  if (alookup p.symbols nid).isSome ∧ nid ∉ acc then acc ++ [nid] else acc

/-- Processing one seed in the expansion loop: a seed id absent from the table
is skipped (with an error log, not an exception); otherwise each of its
one-hop neighbors goes through `add_neighbor`. -/
def expand_seed (p : SymbolParser) (acc : List String) (sid : String) : List String :=
  match alookup p.symbols sid with
  | none => acc
  | some sym => (direct_neighbor_ids p sid sym).foldl (add_neighbor p) acc

/-- `final_symbol_ids` of `_create_sufficient_subset`: the seed set expanded by
one level (`output = seeds ∪ direct_dependencies`; iteration order over the
Python sets does not affect membership, so the seed set is taken as any list
enumerating it). -/
def final_symbol_ids (p : SymbolParser) (seeds : List String) : List String :=
  seeds.foldl (expand_seed p) seeds

/-- The final assembly of `_create_sufficient_subset`: a new parser whose
symbol table keeps every collected id present in the full table, whose
callable sub-index is rebuilt, whose format flags are copied, and whose
relation lists are filtered to pairs with both endpoints inside the subset. -/
def create_sufficient_subset (p : SymbolParser) (seeds : List String) : SymbolParser :=
  let finalIds := final_symbol_ids p seeds
  let symbols := finalIds.filterMap (fun sid =>
    match alookup p.symbols sid with
    | some s => some (sid, s)
    | none => none)
  { symbols := symbols
    functions := symbols.foldl (fun m kv =>
      if kv.2.is_function then astore m kv.2.id kv.2 else m) []
    has_container_field := p.has_container_field
    has_call_kind := p.has_call_kind
    inheritance_relations := p.inheritance_relations.filter (fun bd =>
      decide (bd.1 ∈ finalIds) && decide (bd.2 ∈ finalIds))
    override_relations := p.override_relations.filter (fun bd =>
      decide (bd.1 ∈ finalIds) && decide (bd.2 ∈ finalIds)) }

/-- A minimal symbol record (all optional data absent), used to build concrete
inputs for witnesses and counterexamples. -/
def baseSym (i n k : String) : Symbol :=
  { id := i, name := n, kind := k, declaration := none, definition := none,
    references := [], scope := some "", language := "C", signature := "",
    return_type := "", type := "", body_location := none, parent_id := none,
    aliased_canonical_spelling := none, aliased_type_id := none,
    aliased_type_kind := none }

/-- The field-wise frame the Reconciler is claimed to respect on surviving
index-native symbols: identity, naming, kind, locations, language and
signature data unchanged, references only appended to. -/
def frame_preserved (s s' : Symbol) : Prop :=
  s'.id = s.id ∧ s'.name = s.name ∧ s'.kind = s.kind ∧
  s'.declaration = s.declaration ∧ s'.definition = s.definition ∧
  s'.language = s.language ∧ s'.signature = s.signature ∧
  s'.return_type = s.return_type ∧ s'.type = s.type ∧
  s.references.IsPrefix s'.references

/-- Empty compilation data over project path `/proj`, for concrete pipeline
runs. -/
def exEmpty_data : CompilationData :=
  { project_path := "/proj", source_spans := [], type_alias_spans := [],
    static_calls := [] }

/-- Concrete input for C2: a function whose declaration reference names the
function itself as its container. -/
def exC2_sym : Symbol :=
  { baseSym "AAAA" "f" "Function" with
    declaration := some ⟨"file:///proj/a.c", 3, 0, 3, 1⟩,
    references := [⟨1, ⟨"file:///proj/a.c", 3, 0, 3, 1⟩, some "AAAA"⟩] }

/-- Concrete input for C7: an index symbol located outside the project path. -/
def exC7_sym : Symbol :=
  { baseSym "X" "x" "Function" with
    declaration := some ⟨"file:///other/c.c", 0, 0, 0, 1⟩ }

/-- Concrete input for the C7 witness: an ordinary in-project function. -/
def exK_sym : Symbol :=
  { baseSym "K" "k" "Function" with
    definition := some ⟨"file:///proj/k.c", 1, 0, 2, 1⟩ }

/-- Concrete input for C9: a located symbol outside the project whose kind
`"Name"` is a proper substring of `"Namespace"`. -/
def exC9_sym : Symbol :=
  { baseSym "N" "n" "Name" with
    declaration := some ⟨"file:///other/b.c", 0, 0, 0, 1⟩ }

/-- Concrete input for C1 (the spec's Scenario C): class `C` inherits from `B`
and declares method `m`; `B` itself inherits from `A`, which is two hops from
the seed `{C}`. -/
def exC1_input : SymbolParser :=
  { symbols := [("A", baseSym "A" "A" "Class"), ("B", baseSym "B" "B" "Class"),
      ("C", baseSym "C" "C" "Class"),
      ("m", { baseSym "m" "m" "InstanceMethod" with parent_id := some "C" })],
    functions := [("m", { baseSym "m" "m" "InstanceMethod" with parent_id := some "C" })],
    has_container_field := false, has_call_kind := false,
    inheritance_relations := [("A", "B"), ("B", "C")],
    override_relations := [] }

/-- Concrete input for C5: a non-callable symbol carrying a call-kind reference
with a non-sentinel container id. -/
def exC5_input : SymbolParser :=
  { symbols := [("V", { baseSym "V" "v" "Variable" with
      references := [⟨20, ⟨"file:///a.c", 7, 2, 7, 5⟩, some "CAFECAFECAFECAFE"⟩] })],
    functions := [], has_container_field := true, has_call_kind := true,
    inheritance_relations := [], override_relations := [] }

/-- Concrete input for C4: `foo` is a function whose body occupies a single
line, and `bar` is called from inside that line. -/
def exC4_foo : Symbol :=
  { baseSym "foo" "foo" "Function" with
    definition := some ⟨"file:///a.c", 5, 0, 5, 40⟩,
    body_location := some ⟨5, 0, 5, 40⟩ }

/-- Concrete input for C4: the callee, whose reference list holds the call. -/
def exC4_bar : Symbol :=
  { baseSym "bar" "bar" "Function" with
    references := [⟨20, ⟨"file:///a.c", 5, 10, 5, 13⟩, none⟩] }

/-- Concrete parser input for C4 (legacy format with call kinds). -/
def exC4_input : SymbolParser :=
  { symbols := [("foo", exC4_foo), ("bar", exC4_bar)],
    functions := [("foo", exC4_foo), ("bar", exC4_bar)],
    has_container_field := false, has_call_kind := true,
    inheritance_relations := [], override_relations := [] }

/-- The C4 call site viewed as a degenerate span, for comparison with the
Span Forest Builder's containment test. -/
def exC4_call_span : SourceSpan :=
  ⟨"bar", "CALL_EXPR", "C", ⟨5, 10, 5, 13⟩, ⟨5, 10, 5, 13⟩, "", none⟩

/-- The C4 single-line function body viewed as a span. -/
def exC4_body_span : SourceSpan :=
  ⟨"foo", "FUNCTION_DECL", "C", ⟨5, 0, 5, 3⟩, ⟨5, 0, 5, 40⟩, "", none⟩

/-- Concrete input for C10: function `g` called by function `f` via a
container-id reference. -/
def exC10_input : SymbolParser :=
  { symbols := [("f", baseSym "f" "f" "Function"),
      ("g", { baseSym "g" "g" "Function" with
        references := [⟨28, ⟨"file:///b.c", 1, 0, 1, 1⟩, some "f"⟩] })],
    functions := [("f", baseSym "f" "f" "Function"),
      ("g", { baseSym "g" "g" "Function" with
        references := [⟨28, ⟨"file:///b.c", 1, 0, 1, 1⟩, some "f"⟩] })],
    has_container_field := true, has_call_kind := true,
    inheritance_relations := [], override_relations := [] }

/-- One step of the merge loop in `CompilationParser._parallel_parse` from
`compilation_parser.py`: `all_spans[file_uri].update(spans)` for one
(file_uri, spans) item of a worker's partial result, over the accumulated
defaultdict-of-sets table. -/
def merge_store (a : String → Finset SourceSpan) (kv : String × Finset SourceSpan) :
    String → Finset SourceSpan :=
  fun f => if f = kv.1 then a f ∪ kv.2 else a f

/-- Merging one worker's partial (file → span set) result into the accumulated
table, item by item. -/
def merge_one_result (acc : String → Finset SourceSpan)
    (res : List (String × Finset SourceSpan)) : String → Finset SourceSpan :=
  res.foldl merge_store acc

/-- The whole merge loop of `CompilationParser._parallel_parse`: the partial
results are folded into an initially empty table in completion order. -/
def merge_all (results : List (List (String × Finset SourceSpan))) :
    String → Finset SourceSpan :=
  results.foldl merge_one_result (fun _ => ∅)

/-- Lexicographic order on (line, column) pairs, as used by the spec for span
containment. -/
def coordLe (l1 c1 l2 c2 : Int) : Prop :=
  l1 < l2 ∨ (l1 = l2 ∧ c1 ≤ c2)

/-- C6: `span_is_within inner outer` returns `true` exactly when the two body
coordinate quadruples are not identical, the single-line-outer exclusion does
not apply (`outer` spans one line only allowed when `inner` is a bare-name
"Variable" span), and `inner.start ≥ outer.start`, `inner.end ≤ outer.end`
under lexicographic (line, column) comparison. -/
theorem span_is_within_spec (inner outer : SourceSpan) :
    span_is_within inner outer = true ↔
      ¬(inner.body_location.start_line = outer.body_location.start_line ∧
        inner.body_location.start_column = outer.body_location.start_column ∧
        inner.body_location.end_line = outer.body_location.end_line ∧
        inner.body_location.end_column = outer.body_location.end_column) ∧
      (inner.kind = "Variable" ∨
        outer.body_location.start_line ≠ outer.body_location.end_line) ∧
      coordLe outer.body_location.start_line outer.body_location.start_column
        inner.body_location.start_line inner.body_location.start_column ∧
      coordLe inner.body_location.end_line inner.body_location.end_column
        outer.body_location.end_line outer.body_location.end_column := by
  unfold span_is_within coordLe
  dsimp only
  split_ifs with h1 h2 h3 h4
  · simp only [Bool.false_eq_true, false_iff]
    rintro ⟨hne, -⟩
    exact hne h1
  · simp only [Bool.false_eq_true, false_iff]
    rintro ⟨-, hv, -⟩
    rcases hv with hv | hv
    · exact h2.1 hv
    · exact hv h2.2
  · simp only [true_iff]
    refine ⟨h1, ?_, by omega, by omega⟩
    by_cases hk : inner.kind = "Variable"
    · exact Or.inl hk
    · exact Or.inr (fun hl => h2 ⟨hk, hl⟩)
  · simp only [Bool.false_eq_true, false_iff]
    rintro ⟨-, -, -, hend⟩
    omega
  · simp only [Bool.false_eq_true, false_iff]
    rintro ⟨-, -, hstart, -⟩
    omega

theorem alookup_cons {α : Type} (kv : String × α) (t : List (String × α)) (k : String) :
    alookup (kv :: t) k = if kv.1 = k then some kv.2 else alookup t k := by
  unfold alookup
  by_cases h : kv.1 = k
  · rw [List.find?_cons_of_pos _ (by simpa using h), if_pos h]
    rfl
  · rw [List.find?_cons_of_neg _ (by simpa using h), if_neg h]

theorem alookup_eq_some_mem {α : Type} {l : List (String × α)} {k : String} {v : α}
    (h : alookup l k = some v) : (k, v) ∈ l := by
  induction l with
  | nil => cases h
  | cons kv t ih =>
    rw [alookup_cons] at h
    split_ifs at h with hk
    · cases h
      rw [← hk]
      exact List.mem_cons_self _ _
    · exact List.mem_cons_of_mem _ (ih h)

theorem alookup_eq_none_iff {α : Type} (l : List (String × α)) (k : String) :
    alookup l k = none ↔ k ∉ l.map Prod.fst := by
  induction l with
  | nil => simp [alookup]
  | cons kv t ih =>
    rw [alookup_cons]
    by_cases hk : kv.1 = k
    · simp [hk]
    · simp only [if_neg hk, ih, List.map_cons, List.mem_cons]
      constructor
      · rintro hn (h | h)
        · exact hk h.symm
        · exact hn h
      · intro hn
        exact fun h => hn (Or.inr h)

theorem alookup_eq_some_of_mem_nodup {α : Type} {l : List (String × α)} {k : String} {v : α}
    (hmem : (k, v) ∈ l) (hnodup : (l.map Prod.fst).Nodup) : alookup l k = some v := by
  induction l with
  | nil => cases hmem
  | cons kv t ih =>
    rw [alookup_cons]
    rcases List.mem_cons.mp hmem with h | h
    · rw [← h]
      simp
    · rw [List.map_cons, List.nodup_cons] at hnodup
      have hk : kv.1 ≠ k := by
        intro he
        exact hnodup.1 (he ▸ (List.mem_map.mpr ⟨(k, v), h, rfl⟩))
      rw [if_neg hk]
      exact ih h hnodup.2

theorem alookup_map_replace_self {α : Type} {l : List (String × α)} {k : String} (v : α)
    (hany : l.any (fun p => p.1 = k) = true) :
    alookup (l.map (fun p => if p.1 = k then (k, v) else p)) k = some v := by
  induction l with
  | nil => cases hany
  | cons kv t ih =>
    rw [List.map_cons]
    by_cases hk : kv.1 = k
    · rw [if_pos hk, alookup_cons, if_pos rfl]
    · rw [if_neg hk, alookup_cons, if_neg hk]
      rw [List.any_cons] at hany
      apply ih
      rcases Bool.or_eq_true_iff.mp hany with h | h
      · exact absurd (by simpa using h) hk
      · exact h

theorem alookup_map_replace_other {α : Type} {l : List (String × α)} {k k' : String} (v : α)
    (hne : k' ≠ k) :
    alookup (l.map (fun p => if p.1 = k then (k, v) else p)) k' = alookup l k' := by
  induction l with
  | nil => rfl
  | cons kv t ih =>
    rw [List.map_cons]
    by_cases hk : kv.1 = k
    · have h1 : ¬((k, v).1 = k') := fun h => hne h.symm
      have h2 : ¬(kv.1 = k') := fun h => hne (h.symm.trans hk)
      rw [if_pos hk, alookup_cons, alookup_cons, if_neg h1, if_neg h2, ih]
    · rw [if_neg hk, alookup_cons, alookup_cons, ih]

theorem alookup_any_of_eq_some {α : Type} {l : List (String × α)} {k : String} {v : α}
    (h : alookup l k = some v) : l.any (fun p => p.1 = k) = true := by
  have := alookup_eq_some_mem h
  exact List.any_eq_true.mpr ⟨(k, v), this, by simp⟩

theorem alookup_append_single_none {α : Type} {l : List (String × α)} {k k' : String}
    {v : α} (hl : alookup l k' = none) :
    alookup (l ++ [(k, v)]) k' = if k = k' then some v else none := by
  induction l with
  | nil =>
    rw [List.nil_append, alookup_cons]
    rfl
  | cons kv t ih =>
    rw [alookup_cons] at hl
    rw [List.cons_append, alookup_cons]
    by_cases hh : kv.1 = k'
    · rw [if_pos hh] at hl
      exact absurd hl (by simp)
    · rw [if_neg hh] at hl
      rw [if_neg hh]
      exact ih hl

theorem alookup_append_single_some {α : Type} {l : List (String × α)} {k k' : String}
    {v w : α} (hl : alookup l k' = some w) :
    alookup (l ++ [(k, v)]) k' = some w := by
  induction l with
  | nil => cases hl
  | cons kv t ih =>
    rw [alookup_cons] at hl
    rw [List.cons_append, alookup_cons]
    by_cases hh : kv.1 = k'
    · rw [if_pos hh] at hl
      rw [if_pos hh]
      exact hl
    · rw [if_neg hh] at hl
      rw [if_neg hh]
      exact ih hl

theorem alookup_astore {α : Type} (l : List (String × α)) (k k' : String) (v : α) :
    alookup (astore l k v) k' = if k' = k then some v else alookup l k' := by
  unfold astore
  split_ifs with hany hk hk
  · subst hk
    exact alookup_map_replace_self v hany
  · exact alookup_map_replace_other v hk
  · subst hk
    have hnone : alookup l k' = none := by
      cases hl : alookup l k' with
      | none => rfl
      | some w => exact absurd (alookup_any_of_eq_some hl) (by simpa using hany)
    rw [alookup_append_single_none hnone, if_pos rfl]
  · cases hl : alookup l k' with
    | none => rw [alookup_append_single_none hl, if_neg (fun h => hk h.symm)]
    | some w => exact alookup_append_single_some hl

theorem alookup_aupdate_fresh {α : Type} (base adds : List (String × α)) (k : String)
    (hfresh : ∀ a ∈ adds, a.1 ≠ k) : alookup (aupdate base adds) k = alookup base k := by
  induction adds generalizing base with
  | nil => rfl
  | cons a t ih =>
    have h1 : aupdate base (a :: t) = aupdate (astore base a.1 a.2) t := rfl
    rw [h1, ih _ (fun b hb => hfresh b (List.mem_cons_of_mem _ hb)), alookup_astore,
      if_neg (fun h => hfresh a (List.mem_cons_self _ _) h.symm)]

theorem alookup_map_values {α β : Type} (f : α → β) (l : List (String × α)) (k : String) :
    alookup (l.map (fun kv => (kv.1, f kv.2))) k = (alookup l k).map f := by
  induction l with
  | nil => rfl
  | cons kv t ih =>
    rw [List.map_cons, alookup_cons, alookup_cons]
    by_cases h : kv.1 = k
    · rw [if_pos h, if_pos h]
      rfl
    · rw [if_neg h, if_neg h, ih]

theorem mem_astore {α : Type} {l : List (String × α)} {k : String} {v : α} {a : String × α}
    (h : a ∈ astore l k v) : a.1 = k ∨ a ∈ l := by
  unfold astore at h
  split_ifs at h with hany
  · rcases List.mem_map.mp h with ⟨b, hb, heq⟩
    by_cases hbk : b.1 = k
    · rw [if_pos hbk] at heq
      exact Or.inl (by rw [← heq])
    · rw [if_neg hbk] at heq
      exact Or.inr (heq ▸ hb)
  · rcases List.mem_append.mp h with hb | hb
    · exact Or.inr hb
    · rcases List.mem_singleton.mp hb with rfl
      exact Or.inl rfl

theorem mem_ite_nil {α : Type} {P : Prop} [Decidable P] {l : List α} {a : α} :
    a ∈ (if P then ([] : List α) else l) ↔ ¬P ∧ a ∈ l := by
  split_ifs with h <;> simp [h]

theorem container_edge_eq_some (p : SymbolParser) (callee : Symbol) (ref : Reference)
    (c k : String) :
    container_edge p callee ref = some (c, k) ↔
      ref.container_id = some c ∧ c ≠ "" ∧ c ≠ "0000000000000000" ∧
        (ref.kind = 20 ∨ ref.kind = 28) ∧
        (∃ caller, alookup p.symbols c = some caller ∧ caller.is_function = true) ∧
        k = callee.id := by
  unfold container_edge
  cases href : ref.container_id with
  | none => simp
  | some cid =>
    dsimp only
    split_ifs with hcond
    · cases hca : alookup p.symbols cid with
      | none =>
        dsimp only
        simp only [Option.some.injEq]
        constructor
        · rintro ⟨⟩
        · rintro ⟨hc, -, -, -, ⟨caller, hl, -⟩, -⟩
          cases hc
          rw [hca] at hl
          cases hl
      | some caller =>
        dsimp only
        split_ifs with hfn
        · simp only [Option.some.injEq, Prod.mk.injEq]
          constructor
          · rintro ⟨rfl, rfl⟩
            exact ⟨rfl, hcond.1, hcond.2.1, hcond.2.2, ⟨caller, hca, hfn⟩, rfl⟩
          · rintro ⟨hc, -, -, -, -, hk⟩
            cases hc
            exact ⟨rfl, hk.symm⟩
        · simp only [Option.some.injEq]
          constructor
          · rintro ⟨⟩
          · rintro ⟨hc, -, -, -, ⟨caller', hl, hfn'⟩, -⟩
            cases hc
            rw [hca] at hl
            cases hl
            exact hfn hfn'
    · constructor
      · rintro ⟨⟩
      · rintro ⟨hc, h1, h2, h3, -, -⟩
        cases hc
        exact hcond ⟨h1, h2, h3⟩

theorem mem_extract_with_container (p : SymbolParser) (c k : String) :
    (c, k) ∈ extract_with_container p ↔
      ∃ e ∈ p.symbols, e.2.id = k ∧ e.2.is_function = true ∧
        ∃ ref ∈ e.2.references, container_edge p e.2 ref = some (c, k) := by
  unfold extract_with_container
  simp only [List.mem_flatMap, List.mem_map, mem_ite_nil, List.mem_filterMap, not_or,
    Bool.not_eq_false]
  constructor
  · rintro ⟨callee, ⟨e, he, rfl⟩, ⟨-, hfn⟩, ref, hr, hedge⟩
    have hk := ((container_edge_eq_some p e.2 ref c k).mp hedge).2.2.2.2.2
    exact ⟨e, he, hk.symm, hfn, ref, hr, hedge⟩
  · rintro ⟨e, he, hid, hfn, ref, hr, hedge⟩
    exact ⟨e.2, ⟨e, he, rfl⟩, ⟨List.ne_nil_of_mem hr, hfn⟩, ref, hr, hedge⟩

theorem spatial_edge_eq_some (p : SymbolParser) (callee : Symbol) (ref : Reference)
    (c k : String) :
    spatial_edge p callee ref = some (c, k) ↔
      ref.kind ∈ spatial_valid_call_kinds p ∧
        (∃ bc, (file_function_bodies p ref.location.file_uri).find?
            (fun bc => is_location_within_function_body ref.location bc.1
              ref.location.file_uri) = some bc ∧ c = bc.2.id) ∧
        k = callee.id := by
  unfold spatial_edge
  split_ifs with hkind
  · cases hf : (file_function_bodies p ref.location.file_uri).find?
        (fun bc => is_location_within_function_body ref.location bc.1 ref.location.file_uri) with
    | none =>
      dsimp only
      constructor
      · rintro ⟨⟩
      · rintro ⟨-, ⟨bc, hbc, -⟩, -⟩
        cases hbc
    | some bc =>
      dsimp only
      simp only [Option.some.injEq, Prod.mk.injEq]
      constructor
      · rintro ⟨rfl, rfl⟩
        exact ⟨hkind, ⟨bc, rfl, rfl⟩, rfl⟩
      · rintro ⟨-, ⟨bc', hbc', hc⟩, hk⟩
        cases hbc'
        exact ⟨hc.symm, hk.symm⟩
  · constructor
    · rintro ⟨⟩
    · rintro ⟨hkind', -, -⟩
      exact absurd hkind' hkind

theorem mem_extract_without_container (p : SymbolParser) (c k : String) :
    (c, k) ∈ extract_without_container p ↔
      ∃ e ∈ p.symbols, e.2.id = k ∧ e.2.is_function = true ∧
        ∃ ref ∈ e.2.references, spatial_edge p e.2 ref = some (c, k) := by
  unfold extract_without_container
  simp only [List.mem_flatMap, List.mem_map, mem_ite_nil, List.mem_filterMap, not_or,
    Bool.not_eq_false]
  constructor
  · rintro ⟨callee, ⟨e, he, rfl⟩, ⟨-, hfn⟩, ref, hr, hedge⟩
    have hk := ((spatial_edge_eq_some p e.2 ref c k).mp hedge).2.2
    exact ⟨e, he, hk.symm, hfn, ref, hr, hedge⟩
  · rintro ⟨e, he, hid, hfn, ref, hr, hedge⟩
    exact ⟨e.2, ⟨e, he, rfl⟩, ⟨List.ne_nil_of_mem hr, hfn⟩, ref, hr, hedge⟩

theorem mem_stableInsert {α : Type} (le : α → α → Bool) (a x : α) (l : List α) :
    x ∈ stableInsert le a l ↔ x = a ∨ x ∈ l := by
  induction l with
  | nil => simp [stableInsert]
  | cons b t ih =>
    unfold stableInsert
    split_ifs with h
    · simp
    · simp only [List.mem_cons, ih]
      tauto

theorem mem_stableSort {α : Type} (le : α → α → Bool) (x : α) (l : List α) :
    x ∈ stableSort le l ↔ x ∈ l := by
  induction l with
  | nil => simp [stableSort]
  | cons b t ih =>
    unfold stableSort at *
    simp only [List.foldr_cons, mem_stableInsert, List.mem_cons, ih]

theorem mem_file_function_bodies (p : SymbolParser) (file_uri : String)
    (bc : RelativeLocation × Symbol) :
    bc ∈ file_function_bodies p file_uri ↔
      ∃ e ∈ p.functions, ∃ body defn, e.2.body_location = some body ∧
        e.2.definition = some defn ∧ defn.file_uri = file_uri ∧ bc = (body, e.2) := by
  unfold file_function_bodies
  rw [mem_stableSort]
  simp only [List.mem_filterMap, List.mem_map]
  constructor
  · rintro ⟨f, ⟨e, he, rfl⟩, hm⟩
    cases hb : e.2.body_location with
    | none => rw [hb] at hm; dsimp only at hm; cases hm
    | some body =>
      cases hd : e.2.definition with
      | none => rw [hb, hd] at hm; dsimp only at hm; cases hm
      | some defn =>
        rw [hb, hd] at hm
        dsimp only at hm
        split_ifs at hm with hfile
        · cases hm
          exact ⟨e, he, body, defn, hb, hd, hfile, rfl⟩
  · rintro ⟨e, he, body, defn, hb, hd, hfile, rfl⟩
    refine ⟨e.2, ⟨e, he, rfl⟩, ?_⟩
    rw [hb, hd]
    dsimp only
    rw [if_pos hfile]

/-- C3: the id of every `SourceSpan` produced for an AST node is deterministic
in (name, file, kind, language, name_location, body_location): two produced
spans agreeing on all six of these fields receive the same id, in any run or
process, because the id is computed by a fixed pure function (MD5 of the name,
file URI and name start position, a sub-tuple of the six fields). -/
theorem produced_span_id_deterministic
    (n1 f1 k1 l1 : String) (nsl1 nsc1 bsl1 bsc1 bel1 bec1 : Int) (p1 : Option String)
    (n2 f2 k2 l2 : String) (nsl2 nsc2 bsl2 bsc2 bel2 bec2 : Int) (p2 : Option String)
    (hfile : f1 = f2)
    (hname : (process_generic_node n1 f1 k1 l1 nsl1 nsc1 bsl1 bsc1 bel1 bec1 p1).name =
      (process_generic_node n2 f2 k2 l2 nsl2 nsc2 bsl2 bsc2 bel2 bec2 p2).name)
    (hkind : (process_generic_node n1 f1 k1 l1 nsl1 nsc1 bsl1 bsc1 bel1 bec1 p1).kind =
      (process_generic_node n2 f2 k2 l2 nsl2 nsc2 bsl2 bsc2 bel2 bec2 p2).kind)
    (hlang : (process_generic_node n1 f1 k1 l1 nsl1 nsc1 bsl1 bsc1 bel1 bec1 p1).lang =
      (process_generic_node n2 f2 k2 l2 nsl2 nsc2 bsl2 bsc2 bel2 bec2 p2).lang)
    (hnl : (process_generic_node n1 f1 k1 l1 nsl1 nsc1 bsl1 bsc1 bel1 bec1 p1).name_location =
      (process_generic_node n2 f2 k2 l2 nsl2 nsc2 bsl2 bsc2 bel2 bec2 p2).name_location)
    (hbl : (process_generic_node n1 f1 k1 l1 nsl1 nsc1 bsl1 bsc1 bel1 bec1 p1).body_location =
      (process_generic_node n2 f2 k2 l2 nsl2 nsc2 bsl2 bsc2 bel2 bec2 p2).body_location) :
    (process_generic_node n1 f1 k1 l1 nsl1 nsc1 bsl1 bsc1 bel1 bec1 p1).id =
      (process_generic_node n2 f2 k2 l2 nsl2 nsc2 bsl2 bsc2 bel2 bec2 p2).id := by
  simp only [process_generic_node, RelativeLocation.mk.injEq] at hname hnl ⊢
  obtain ⟨h1, h2, -, -⟩ := hnl
  subst hfile hname h1 h2
  rfl

/-- Witness for C3: two concrete node spans that agree on all six fields
(differing only in the resolved parent id) receive the same id. -/
theorem produced_span_id_deterministic_witness :
    (process_generic_node "x" "file:///a.c" "STRUCT_DECL" "C" 3 5 3 0 10 1 none).id =
      (process_generic_node "x" "file:///a.c" "STRUCT_DECL" "C" 3 5 3 0 10 1 (some "p")).id :=
  produced_span_id_deterministic
    "x" "file:///a.c" "STRUCT_DECL" "C" 3 5 3 0 10 1 none
    "x" "file:///a.c" "STRUCT_DECL" "C" 3 5 3 0 10 1 (some "p")
    rfl rfl rfl rfl rfl rfl

theorem mem_merge_one (acc : String → Finset SourceSpan)
    (res : List (String × Finset SourceSpan)) (f : String) (x : SourceSpan) :
    x ∈ merge_one_result acc res f ↔ x ∈ acc f ∨ ∃ kv ∈ res, kv.1 = f ∧ x ∈ kv.2 := by
  induction res generalizing acc with
  | nil => simp [merge_one_result]
  | cons kv t ih =>
    have h1 : merge_one_result acc (kv :: t) = merge_one_result (merge_store acc kv) t := rfl
    rw [h1, ih]
    simp only [merge_store, List.mem_cons]
    by_cases hf : f = kv.1
    · rw [if_pos hf, Finset.mem_union]
      constructor
      · rintro ((h | h) | ⟨kv', hkv', hf', hx⟩)
        · exact Or.inl h
        · exact Or.inr ⟨kv, Or.inl rfl, hf.symm, h⟩
        · exact Or.inr ⟨kv', Or.inr hkv', hf', hx⟩
      · rintro (h | ⟨kv', hkv' | hkv', hf', hx⟩)
        · exact Or.inl (Or.inl h)
        · subst hkv'
          exact Or.inl (Or.inr hx)
        · exact Or.inr ⟨kv', hkv', hf', hx⟩
    · rw [if_neg hf]
      constructor
      · rintro (h | ⟨kv', hkv', hf', hx⟩)
        · exact Or.inl h
        · exact Or.inr ⟨kv', Or.inr hkv', hf', hx⟩
      · rintro (h | ⟨kv', hkv' | hkv', hf', hx⟩)
        · exact Or.inl h
        · subst hkv'
          exact absurd hf'.symm hf
        · exact Or.inr ⟨kv', hkv', hf', hx⟩

theorem mem_foldl_merge (acc : String → Finset SourceSpan)
    (rs : List (List (String × Finset SourceSpan))) (f : String) (x : SourceSpan) :
    x ∈ rs.foldl merge_one_result acc f ↔
      x ∈ acc f ∨ ∃ r ∈ rs, ∃ kv ∈ r, kv.1 = f ∧ x ∈ kv.2 := by
  induction rs generalizing acc with
  | nil => simp
  | cons r t ih =>
    rw [List.foldl_cons, ih, mem_merge_one]
    simp only [List.exists_mem_cons_iff]
    exact or_assoc

theorem mem_merge_all (rs : List (List (String × Finset SourceSpan))) (f : String)
    (x : SourceSpan) :
    x ∈ merge_all rs f ↔ ∃ r ∈ rs, ∃ kv ∈ r, kv.1 = f ∧ x ∈ kv.2 := by
  unfold merge_all
  rw [mem_foldl_merge]
  simp

/-- C8: merging worker-produced partial span tables by per-file set union is
commutative and idempotent — folding any collection of partial results into
the accumulated table in any order yields the same final file → span-set
table, and delivering the same partial result twice yields the same table as
delivering it once. -/
theorem span_merge_union_comm_idem :
    (∀ rs1 rs2 : List (List (String × Finset SourceSpan)), rs1.Perm rs2 →
      merge_all rs1 = merge_all rs2) ∧
    (∀ (r : List (String × Finset SourceSpan)) rs,
      merge_all (r :: r :: rs) = merge_all (r :: rs)) := by
  constructor
  · intro rs1 rs2 hperm
    funext f
    ext x
    rw [mem_merge_all, mem_merge_all]
    constructor <;> rintro ⟨r, hr, rest⟩
    · exact ⟨r, hperm.mem_iff.mp hr, rest⟩
    · exact ⟨r, hperm.mem_iff.mpr hr, rest⟩
  · intro r rs
    funext f
    ext x
    rw [mem_merge_all, mem_merge_all]
    simp only [List.exists_mem_cons_iff]
    constructor
    · rintro (h | h | h)
      exacts [Or.inl h, Or.inl h, Or.inr h]
    · rintro (h | h)
      exacts [Or.inl h, Or.inr (Or.inr h)]

theorem mem_foldl_add_neighbor (p : SymbolParser) (l : List String) (acc : List String)
    (x : String) :
    x ∈ l.foldl (add_neighbor p) acc ↔
      x ∈ acc ∨ ((alookup p.symbols x).isSome = true ∧ x ∈ l) := by
  induction l generalizing acc with
  | nil => simp
  | cons n t ih =>
    rw [List.foldl_cons, ih]
    unfold add_neighbor
    split_ifs with h
    · simp only [List.mem_append, List.mem_cons, List.not_mem_nil, or_false]
      constructor
      · rintro ((hx | rfl) | ⟨hs, hx⟩)
        · exact Or.inl hx
        · exact Or.inr ⟨h.1, Or.inl rfl⟩
        · exact Or.inr ⟨hs, Or.inr hx⟩
      · rintro (hx | ⟨hs, rfl | hx⟩)
        · exact Or.inl (Or.inl hx)
        · exact Or.inl (Or.inr rfl)
        · exact Or.inr ⟨hs, hx⟩
    · simp only [List.mem_cons]
      constructor
      · rintro (hx | ⟨hs, hx⟩)
        · exact Or.inl hx
        · exact Or.inr ⟨hs, Or.inr hx⟩
      · rintro (hx | ⟨hs, rfl | hx⟩)
        · exact Or.inl hx
        · rcases not_and_or.mp h with h1 | h2
          · exact absurd hs h1
          · exact Or.inl (not_not.mp h2)
        · exact Or.inr ⟨hs, hx⟩

theorem mem_expand_seed (p : SymbolParser) (acc : List String) (sid x : String) :
    x ∈ expand_seed p acc sid ↔
      x ∈ acc ∨ ∃ sym, alookup p.symbols sid = some sym ∧
        (alookup p.symbols x).isSome = true ∧ x ∈ direct_neighbor_ids p sid sym := by
  unfold expand_seed
  cases hs : alookup p.symbols sid with
  | none =>
    dsimp only
    constructor
    · exact Or.inl
    · rintro (hx | ⟨sym, hsym, -⟩)
      · exact hx
      · cases hsym
  | some sym0 =>
    dsimp only
    rw [mem_foldl_add_neighbor]
    constructor
    · rintro (hx | ⟨hs', hx⟩)
      · exact Or.inl hx
      · exact Or.inr ⟨sym0, rfl, hs', hx⟩
    · rintro (hx | ⟨sym, hsym, hs', hx⟩)
      · exact Or.inl hx
      · cases hsym
        exact Or.inr ⟨hs', hx⟩

theorem mem_foldl_expand (p : SymbolParser) (l : List String) (acc : List String)
    (x : String) :
    x ∈ l.foldl (expand_seed p) acc ↔
      x ∈ acc ∨ ∃ s ∈ l, ∃ sym, alookup p.symbols s = some sym ∧
        (alookup p.symbols x).isSome = true ∧ x ∈ direct_neighbor_ids p s sym := by
  induction l generalizing acc with
  | nil => simp
  | cons s t ih =>
    rw [List.foldl_cons, ih]
    simp only [List.exists_mem_cons_iff]
    rw [mem_expand_seed]
    exact or_assoc

theorem mem_final_symbol_ids (p : SymbolParser) (seeds : List String) (x : String) :
    x ∈ final_symbol_ids p seeds ↔
      x ∈ seeds ∨ ∃ s ∈ seeds, ∃ sym, alookup p.symbols s = some sym ∧
        (alookup p.symbols x).isSome = true ∧ x ∈ direct_neighbor_ids p s sym := by
  unfold final_symbol_ids
  rw [mem_foldl_expand]

/-- C1: the sufficient subset computed by the Incremental Scope Builder, for
seed ids drawn from the enriched symbol table, holds exactly the seeds and
the ids one hop away from some table seed across the six precomputed relation
tables that are themselves present in the table: it contains every seed;
contains every one-hop-reachable id present in the table; excludes every id
reachable only by two or more hops; and ids referenced by a relation but
absent from the symbol table are skipped without an error (the right-hand
side's `isSome` conjunct — the embedding is a total function). -/
theorem sufficient_subset_spec (p : SymbolParser) (seeds : List String) (x : String)
    (hseeds : ∀ s ∈ seeds, (alookup p.symbols s).isSome = true) :
    x ∈ (create_sufficient_subset p seeds).symbols.map Prod.fst ↔
      x ∈ seeds ∨ ((alookup p.symbols x).isSome = true ∧
        ∃ s ∈ seeds, ∃ sym, alookup p.symbols s = some sym ∧
          x ∈ direct_neighbor_ids p s sym) := by
  have hkeys : x ∈ (create_sufficient_subset p seeds).symbols.map Prod.fst ↔
      x ∈ final_symbol_ids p seeds ∧ (alookup p.symbols x).isSome = true := by
    simp only [create_sufficient_subset, List.mem_map, List.mem_filterMap]
    constructor
    · rintro ⟨kv, ⟨sid, hsid, hmap⟩, rfl⟩
      rcases ho : alookup p.symbols sid with _ | s
      · rw [ho] at hmap
        cases hmap
      · rw [ho] at hmap
        dsimp only at hmap
        cases hmap
        exact ⟨hsid, by rw [ho]; rfl⟩
    · rintro ⟨hfin, hsome⟩
      rcases ho : alookup p.symbols x with _ | s
      · rw [ho] at hsome
        cases hsome
      · exact ⟨(x, s), ⟨x, hfin, by rw [ho]⟩, rfl⟩
  rw [hkeys, mem_final_symbol_ids]
  constructor
  · rintro ⟨hx | ⟨s, hs, sym, hsym, hxsome, hhop⟩, hsome⟩
    · exact Or.inl hx
    · exact Or.inr ⟨hsome, s, hs, sym, hsym, hhop⟩
  · rintro (hx | ⟨hsome, s, hs, sym, hsym, hhop⟩)
    · exact ⟨Or.inl hx, hseeds x hx⟩
    · exact ⟨Or.inr ⟨s, hs, sym, hsym, hsome, hhop⟩, hsome⟩

/-- Witness for C1: on Scenario C (seed `{C}`, `C` inherits from `B` and
declares method `m`), base class `B` of the seed is in the sufficient
subset. -/
theorem sufficient_subset_spec_witness :
    (∀ s ∈ ["C"], (alookup exC1_input.symbols s).isSome = true) ∧
    "B" ∈ (create_sufficient_subset exC1_input ["C"]).symbols.map Prod.fst :=
  ⟨by decide, (sufficient_subset_spec exC1_input ["C"] "B" (by decide)).mpr
    (Or.inr ⟨by decide, "C", by decide, baseSym "C" "C" "Class", by decide, by decide⟩)⟩

/-- Counterexample for C5: a call-kind (20) reference with a non-sentinel
container id is present, yet no edge is emitted, because the referenced symbol
is not of callable kind — refuting the claim that every such reference yields
an edge. -/
theorem container_strategy_claim_counterexample :
    (∃ e ∈ exC5_input.symbols, e.2.id = "V" ∧
      ∃ ref ∈ e.2.references, ref.kind = 20 ∧
        ref.container_id = some "CAFECAFECAFECAFE" ∧
        "CAFECAFECAFECAFE" ≠ "0000000000000000") ∧
    ("CAFECAFECAFECAFE", "V") ∉ extract_with_container exC5_input := by
  decide

/-- C5 (amended): under the container strategy, an edge container_id →
referenced-symbol-id is emitted exactly when some table symbol with that id
carries a reference whose kind equals one of the two known spelled non-macro
call bit patterns (20 old encoding, 28 new encoding) and whose container id is
truthy and non-sentinel, *and additionally* the referenced symbol is of
callable kind and the container id resolves in the table to a symbol of
callable kind. -/
theorem container_strategy_edges (p : SymbolParser) (c k : String) :
    (c, k) ∈ extract_with_container p ↔
      ∃ e ∈ p.symbols, e.2.id = k ∧ e.2.is_function = true ∧
        ∃ ref ∈ e.2.references, ref.container_id = some c ∧ c ≠ "" ∧
          c ≠ "0000000000000000" ∧ (ref.kind = 20 ∨ ref.kind = 28) ∧
          ∃ caller, alookup p.symbols c = some caller ∧ caller.is_function = true := by
  rw [mem_extract_with_container]
  constructor
  · rintro ⟨e, he, hid, hfn, ref, hr, hedge⟩
    obtain ⟨h1, h2, h3, h4, h5, -⟩ := (container_edge_eq_some p e.2 ref c k).mp hedge
    exact ⟨e, he, hid, hfn, ref, hr, h1, h2, h3, h4, h5⟩
  · rintro ⟨e, he, hid, hfn, ref, hr, h1, h2, h3, h4, h5⟩
    exact ⟨e, he, hid, hfn, ref, hr,
      (container_edge_eq_some p e.2 ref c k).mpr ⟨h1, h2, h3, h4, h5, hid.symm⟩⟩

/-- Counterexample for C4: the spatial extractor's containment test is not the
same test as `span_is_within`. For a one-line function body containing a call
site, the spatial test accepts (and the extractor emits the edge `foo → bar`),
while `span_is_within` rejects, because its single-line-outer rule excludes
any non-Variable inner span. -/
theorem spatial_containment_test_counterexample :
    ("foo", "bar") ∈ extract_without_container exC4_input ∧
    is_location_within_function_body ⟨"file:///a.c", 5, 10, 5, 13⟩ ⟨5, 0, 5, 40⟩
      "file:///a.c" = true ∧
    span_is_within exC4_call_span exC4_body_span = false := by
  decide

/-- C4 (amended): in the spatial strategy, an edge (c, k) is emitted exactly
when a callable table symbol with id k has a reference of call kind whose
file's sorted candidate body list has a first entry containing the reference
location under `is_location_within_function_body` (the inclusive-bounds
same-file comparison, not §4.1's `within`), with c the id of that first
containing body's function; and a reference contained in no candidate body
produces no edge (and no error — the embedding is a total function). -/
theorem spatial_strategy_edges (p : SymbolParser) (c k : String) :
    ((c, k) ∈ extract_without_container p ↔
      ∃ e ∈ p.symbols, e.2.id = k ∧ e.2.is_function = true ∧
        ∃ ref ∈ e.2.references, ref.kind ∈ spatial_valid_call_kinds p ∧
          ∃ pre bc post,
            file_function_bodies p ref.location.file_uri = pre ++ bc :: post ∧
            is_location_within_function_body ref.location bc.1 ref.location.file_uri = true ∧
            (∀ bc' ∈ pre,
              is_location_within_function_body ref.location bc'.1 ref.location.file_uri = false) ∧
            c = bc.2.id) ∧
    (∀ callee ref,
      (∀ bc ∈ file_function_bodies p ref.location.file_uri,
        is_location_within_function_body ref.location bc.1 ref.location.file_uri = false) →
      spatial_edge p callee ref = none) := by
  constructor
  · rw [mem_extract_without_container]
    constructor
    · rintro ⟨e, he, hid, hfn, ref, hr, hedge⟩
      obtain ⟨hkind, ⟨bc, hfind, hc⟩, -⟩ := (spatial_edge_eq_some p e.2 ref c k).mp hedge
      obtain ⟨hpred, pre, post, heq, hall⟩ := List.find?_eq_some.mp hfind
      refine ⟨e, he, hid, hfn, ref, hr, hkind, pre, bc, post, heq, hpred, ?_, hc⟩
      intro b hb
      simpa using hall b hb
    · rintro ⟨e, he, hid, hfn, ref, hr, hkind, pre, bc, post, heq, hcont, hpre, hc⟩
      refine ⟨e, he, hid, hfn, ref, hr, (spatial_edge_eq_some p e.2 ref c k).mpr
        ⟨hkind, ⟨bc, ?_, hc⟩, hid.symm⟩⟩
      refine List.find?_eq_some.mpr ⟨hcont, pre, post, heq, ?_⟩
      intro b hb
      simpa using hpre b hb
  · intro callee ref hnone
    unfold spatial_edge
    split_ifs with hkind
    · cases hf : (file_function_bodies p ref.location.file_uri).find?
          (fun bc => is_location_within_function_body ref.location bc.1 ref.location.file_uri) with
      | none => rfl
      | some bc =>
        have hmem := List.mem_of_find?_eq_some hf
        have hpred := List.find?_some hf
        rw [hnone bc hmem] at hpred
        cases hpred
    · rfl

/-- Witness for C4 (amended): on the concrete single-line-body input, the
characterization produces the edge `foo → bar`. -/
theorem spatial_strategy_edges_witness :
    ("foo", "bar") ∈ extract_without_container exC4_input :=
  (spatial_strategy_edges exC4_input "foo" "bar").1.mpr
    ⟨("bar", exC4_bar), by decide, by decide, by decide,
      ⟨20, ⟨"file:///a.c", 5, 10, 5, 13⟩, none⟩, by decide, by decide,
      [], (⟨5, 0, 5, 40⟩, exC4_foo), [], by decide, by decide, by decide, by decide⟩

/-- C10: every (caller_id, callee_id) pair emitted by either extractor has both
endpoints of callable kind: under the container strategy the caller id
resolves in the table to a symbol satisfying `is_function` and the callee is a
callable table symbol; under the spatial strategy the caller is drawn from the
callable sub-index `functions` (hypothesis `hfun`, which holds of every parser
the code builds) and carries a body, and the callee is a callable table
symbol. -/
theorem call_edge_endpoints_callable (p : SymbolParser)
    (hfun : ∀ e ∈ p.functions, e.2.is_function = true) :
    (∀ ck ∈ extract_with_container p,
      (∃ caller, alookup p.symbols ck.1 = some caller ∧ caller.is_function = true) ∧
      ∃ e ∈ p.symbols, e.2.id = ck.2 ∧ e.2.is_function = true) ∧
    (∀ ck ∈ extract_without_container p,
      (∃ e ∈ p.functions, e.2.id = ck.1 ∧ e.2.is_function = true ∧
        e.2.body_location.isSome = true) ∧
      ∃ e ∈ p.symbols, e.2.id = ck.2 ∧ e.2.is_function = true) := by
  constructor
  · rintro ⟨c, k⟩ hck
    obtain ⟨e, he, hid, hfn, ref, hr, hedge⟩ := (mem_extract_with_container p c k).mp hck
    obtain ⟨-, -, -, -, h5, -⟩ := (container_edge_eq_some p e.2 ref c k).mp hedge
    exact ⟨h5, e, he, hid, hfn⟩
  · rintro ⟨c, k⟩ hck
    obtain ⟨e, he, hid, hfn, ref, hr, hedge⟩ := (mem_extract_without_container p c k).mp hck
    obtain ⟨-, ⟨bc, hfind, hc⟩, -⟩ := (spatial_edge_eq_some p e.2 ref c k).mp hedge
    obtain ⟨ef, hef, body, defn, hb, -, -, hbceq⟩ :=
      (mem_file_function_bodies p ref.location.file_uri bc).mp (List.mem_of_find?_eq_some hfind)
    refine ⟨⟨ef, hef, ?_, hfun ef hef, ?_⟩, e, he, hid, hfn⟩
    · rw [hc, hbceq]
    · rw [hb]
      rfl

/-- Witness for C10: on a concrete container-format input with edge `f → g`,
both endpoints are callable. -/
theorem call_edge_endpoints_callable_witness :
    (∀ e ∈ exC10_input.functions, e.2.is_function = true) ∧
    ((∃ caller, alookup exC10_input.symbols "f" = some caller ∧
        caller.is_function = true) ∧
      ∃ e ∈ exC10_input.symbols, e.2.id = "g" ∧ e.2.is_function = true) :=
  ⟨by decide, (call_edge_endpoints_callable exC10_input (by decide)).1 ("f", "g") (by decide)⟩

theorem frame_preserved_refl (s : Symbol) : frame_preserved s s :=
  ⟨rfl, rfl, rfl, rfl, rfl, rfl, rfl, rfl, rfl, List.prefix_refl _⟩

theorem frame_preserved_trans {a b c : Symbol} (h1 : frame_preserved a b)
    (h2 : frame_preserved b c) : frame_preserved a c := by
  obtain ⟨e1, e2, e3, e4, e5, e6, e7, e8, e9, p1⟩ := h1
  obtain ⟨f1, f2, f3, f4, f5, f6, f7, f8, f9, p2⟩ := h2
  exact ⟨f1.trans e1, f2.trans e2, f3.trans e3, f4.trans e4, f5.trans e5, f6.trans e6,
    f7.trans e7, f8.trans e8, f9.trans e9, p1.trans p2⟩

theorem ref_container_step_frame (s : Symbol) : frame_preserved s (ref_container_step s) := by
  unfold ref_container_step
  repeat' split
  all_goals exact frame_preserved_refl _

theorem resolve_and_assign_frame (remap : List (String × String)) (sym : Symbol)
    (psid : Option String) : frame_preserved sym (resolve_and_assign remap sym psid) := by
  unfold resolve_and_assign
  dsimp only
  split_ifs with h
  · exact frame_preserved_refl _
  · exact ⟨rfl, rfl, rfl, rfl, rfl, rfl, rfl, rfl, rfl, List.prefix_refl _⟩

theorem lexical_step_frame (project_path : String)
    (spans : List (String × List (String × SourceSpan)))
    (remap : List (String × String)) (sym : Symbol) :
    frame_preserved sym (lexical_step project_path spans remap sym) := by
  unfold lexical_step
  dsimp only
  repeat' split
  all_goals first
    | exact frame_preserved_refl _
    | exact resolve_and_assign_frame _ _ _

theorem enrich_matched_type_alias_frame (remap : List (String × String)) (sym : Symbol)
    (tas : TypeAliasSpan) : frame_preserved sym (enrich_matched_type_alias remap sym tas) := by
  unfold enrich_matched_type_alias
  dsimp only
  repeat' split
  all_goals exact ⟨rfl, rfl, rfl, rfl, rfl, rfl, rfl, rfl, rfl, List.prefix_refl _⟩

theorem append_static_ref_frame (c : String) (s : Symbol) :
    frame_preserved s (append_static_ref c s) :=
  ⟨rfl, rfl, rfl, rfl, rfl, rfl, rfl, rfl, rfl, List.prefix_append _ _⟩

theorem static_step_frame (cc : String × String) (key : String) (s : Symbol) :
    frame_preserved s (static_step cc key s) := by
  unfold static_step
  split_ifs with h
  · exact append_static_ref_frame _ _
  · exact frame_preserved_refl _

theorem alookup_map_keyed {α β : Type} (f : String → α → β) (l : List (String × α))
    (k : String) :
    alookup (l.map (fun kv => (kv.1, f kv.1 kv.2))) k = (alookup l k).map (f k) := by
  induction l with
  | nil => rfl
  | cons kv t ih =>
    rw [List.map_cons, alookup_cons, alookup_cons]
    by_cases h : kv.1 = k
    · rw [if_pos h, if_pos h, h]
      rfl
    · rw [if_neg h, if_neg h, ih]

theorem static_calls_lookup (calls : List (String × String))
    (symbols : List (String × Symbol)) (k : String) (v : Symbol)
    (h : alookup symbols k = some v) :
    ∃ v', alookup (enrich_with_static_calls calls symbols) k = some v' ∧
      frame_preserved v v' := by
  induction calls generalizing symbols v with
  | nil => exact ⟨v, h, frame_preserved_refl v⟩
  | cons cc t ih =>
    have h2 : alookup (symbols.map (fun kv => (kv.1, static_step cc kv.1 kv.2))) k =
        some (static_step cc k v) := by
      rw [alookup_map_keyed, h]
      rfl
    obtain ⟨v', hv', hf⟩ := ih _ _ h2
    exact ⟨v', hv', frame_preserved_trans (static_step_frame cc k v) hf⟩

theorem mem_adelete {α : Type} {l : List (String × α)} {k : String} {a : String × α}
    (h : a ∈ adelete l k) : a ∈ l ∧ a.1 ≠ k := by
  unfold adelete at h
  have hm := List.mem_filter.mp h
  exact ⟨hm.1, by simpa using hm.2⟩

theorem mem_span_delete {d : List (String × List (String × SourceSpan))} {f key : String}
    {fe : String × List (String × SourceSpan)} (h : fe ∈ span_delete d f key) :
    ∃ fe0 ∈ d, ∀ ks ∈ fe.2, ks ∈ fe0.2 := by
  unfold span_delete at h
  rcases List.mem_map.mp h with ⟨fe0, hfe0, heq⟩
  refine ⟨fe0, hfe0, ?_⟩
  intro ks hks
  by_cases hf : fe0.1 = f
  · rw [if_pos hf] at heq
    rw [← heq] at hks
    exact (mem_adelete hks).1
  · rw [if_neg hf] at heq
    rw [← heq] at hks
    exact hks

theorem match_pass1_lookup (l : List (String × Symbol))
    (remaining : List (String × List (String × SourceSpan)))
    (remap : List (String × String)) (k : String) (v : Symbol)
    (h : alookup l k = some v) :
    ∃ v', alookup (match_pass1 remaining remap l).1 k = some v' ∧ frame_preserved v v' := by
  induction l generalizing remaining remap with
  | nil => cases h
  | cons kv t ih =>
    rw [alookup_cons] at h
    by_cases hk : kv.1 = k
    · rw [if_pos hk] at h
      injection h with h
      subst h
      unfold match_pass1
      cases hml : main_loc kv.2 with
      | none =>
        dsimp only
        rw [alookup_cons, if_pos hk]
        exact ⟨kv.2, rfl, frame_preserved_refl _⟩
      | some loc =>
        dsimp only
        cases hsl : span_lookup remaining loc.file_uri
            (make_symbol_key kv.2.name loc.file_uri loc.start_line loc.start_column) with
        | none =>
          dsimp only
          rw [alookup_cons, if_pos hk]
          exact ⟨kv.2, rfl, frame_preserved_refl _⟩
        | some span =>
          dsimp only
          rw [alookup_cons, if_pos hk]
          exact ⟨_, rfl, frame_preserved_refl _⟩
    · rw [if_neg hk] at h
      unfold match_pass1
      cases hml : main_loc kv.2 with
      | none =>
        dsimp only
        obtain ⟨v', hv', hf⟩ := ih remaining remap h
        rw [alookup_cons, if_neg hk]
        exact ⟨v', hv', hf⟩
      | some loc =>
        dsimp only
        cases hsl : span_lookup remaining loc.file_uri
            (make_symbol_key kv.2.name loc.file_uri loc.start_line loc.start_column) with
        | none =>
          dsimp only
          obtain ⟨v', hv', hf⟩ := ih remaining remap h
          rw [alookup_cons, if_neg hk]
          exact ⟨v', hv', hf⟩
        | some span =>
          dsimp only
          obtain ⟨v', hv', hf⟩ := ih _ _ h
          rw [alookup_cons, if_neg hk]
          exact ⟨v', hv', hf⟩

theorem match_pass1_remaining_sub (l : List (String × Symbol))
    (remaining : List (String × List (String × SourceSpan)))
    (remap : List (String × String)) :
    ∀ fe ∈ (match_pass1 remaining remap l).2.2, ∀ ks ∈ fe.2,
      ∃ fe0 ∈ remaining, ks ∈ fe0.2 := by
  induction l generalizing remaining remap with
  | nil =>
    intro fe hfe ks hks
    exact ⟨fe, hfe, hks⟩
  | cons kv t ih =>
    intro fe hfe ks hks
    unfold match_pass1 at hfe
    rcases hml : main_loc kv.2 with _ | loc
    · rw [hml] at hfe
      dsimp only at hfe
      exact ih remaining remap fe hfe ks hks
    · rw [hml] at hfe
      dsimp only at hfe
      rcases hsl : span_lookup remaining loc.file_uri
          (make_symbol_key kv.2.name loc.file_uri loc.start_line loc.start_column) with _ | span
      · rw [hsl] at hfe
        dsimp only at hfe
        exact ih remaining remap fe hfe ks hks
      · rw [hsl] at hfe
        dsimp only at hfe
        obtain ⟨fe1, hfe1, hsub⟩ := ih _ _ fe hfe ks hks
        obtain ⟨fe0, hfe0, hsub0⟩ := mem_span_delete hfe1
        exact ⟨fe0, hfe0, hsub0 ks hsub⟩

theorem match_pass2_file_mem (f : String) (ks : List (String × SourceSpan))
    (synths : List (String × Symbol)) (remap : List (String × String)) :
    ∀ a ∈ (match_pass2_file f ks synths remap).1,
      a ∈ synths ∨ ∃ ksp ∈ ks, a.1 = ksp.2.id := by
  induction ks generalizing synths remap with
  | nil =>
    intro a ha
    exact Or.inl ha
  | cons kspan t ih =>
    intro a ha
    unfold match_pass2_file at ha
    dsimp only at ha
    rcases ih _ _ a ha with h | ⟨ksp, hksp, hid⟩
    · rcases mem_astore h with h' | h'
      · exact Or.inr ⟨kspan, List.mem_cons_self _ _, h'⟩
      · exact Or.inl h'
    · exact Or.inr ⟨ksp, List.mem_cons_of_mem _ hksp, hid⟩

theorem match_pass2_go_mem (rem : List (String × List (String × SourceSpan)))
    (synths : List (String × Symbol)) (remap : List (String × String)) :
    ∀ a ∈ (match_pass2_go rem synths remap).1,
      a ∈ synths ∨ ∃ fe ∈ rem, ∃ ksp ∈ fe.2, a.1 = ksp.2.id := by
  induction rem generalizing synths remap with
  | nil =>
    intro a ha
    exact Or.inl ha
  | cons fe rest ih =>
    intro a ha
    unfold match_pass2_go at ha
    dsimp only at ha
    rcases ih _ _ a ha with h | ⟨fe', hfe', ksp, hksp, hid⟩
    · rcases match_pass2_file_mem fe.1 fe.2 synths remap a h with h' | ⟨ksp, hksp, hid⟩
      · exact Or.inl h'
      · exact Or.inr ⟨fe, List.mem_cons_self _ _, ksp, hksp, hid⟩
    · exact Or.inr ⟨fe', List.mem_cons_of_mem _ hfe', ksp, hksp, hid⟩

theorem type_alias_pass1_lookup (l : List (String × Symbol))
    (remap : List (String × String)) (unmatched : List (String × TypeAliasSpan))
    (k : String) (v : Symbol) (h : alookup l k = some v) :
    ∃ v', alookup (type_alias_pass1 remap unmatched l).1 k = some v' ∧
      frame_preserved v v' := by
  induction l generalizing remap unmatched with
  | nil => cases h
  | cons kv t ih =>
    rw [alookup_cons] at h
    by_cases hk : kv.1 = k
    · rw [if_pos hk] at h
      injection h with h
      subst h
      unfold type_alias_pass1
      split_ifs with hkind
      · dsimp only
        rw [alookup_cons, if_pos hk]
        exact ⟨kv.2, rfl, frame_preserved_refl _⟩
      · cases hum : alookup unmatched kv.1 with
        | none =>
          dsimp only
          rw [alookup_cons, if_pos hk]
          exact ⟨kv.2, rfl, frame_preserved_refl _⟩
        | some tas =>
          dsimp only
          rw [alookup_cons, if_pos hk]
          exact ⟨_, rfl, enrich_matched_type_alias_frame _ _ _⟩
    · rw [if_neg hk] at h
      unfold type_alias_pass1
      split_ifs with hkind
      · dsimp only
        obtain ⟨v', hv', hf⟩ := ih remap unmatched h
        rw [alookup_cons, if_neg hk]
        exact ⟨v', hv', hf⟩
      · cases hum : alookup unmatched kv.1 with
        | none =>
          dsimp only
          obtain ⟨v', hv', hf⟩ := ih remap unmatched h
          rw [alookup_cons, if_neg hk]
          exact ⟨v', hv', hf⟩
        | some tas =>
          dsimp only
          obtain ⟨v', hv', hf⟩ := ih _ _ h
          rw [alookup_cons, if_neg hk]
          exact ⟨v', hv', hf⟩

theorem type_alias_pass1_unmatched (l : List (String × Symbol))
    (remap : List (String × String)) (unmatched : List (String × TypeAliasSpan)) :
    ∀ te ∈ (type_alias_pass1 remap unmatched l).2.2,
      te ∈ unmatched ∧ ∀ sym, (te.1, sym) ∈ l → sym.kind ≠ "TypeAlias" := by
  induction l generalizing remap unmatched with
  | nil =>
    intro te hte
    exact ⟨hte, fun sym hmem => absurd hmem (List.not_mem_nil _)⟩
  | cons kv t ih =>
    intro te hte
    unfold type_alias_pass1 at hte
    split_ifs at hte with hkind
    · dsimp only at hte
      obtain ⟨hmem, hrest⟩ := ih remap unmatched te hte
      refine ⟨hmem, ?_⟩
      intro sym hsym
      rcases List.mem_cons.mp hsym with heq | hmem'
      · have : sym = kv.2 := congrArg Prod.snd heq
        rw [this]
        exact hkind
      · exact hrest sym hmem'
    · rcases hum : alookup unmatched kv.1 with _ | tas
      · rw [hum] at hte
        dsimp only at hte
        obtain ⟨hmem, hrest⟩ := ih remap unmatched te hte
        refine ⟨hmem, ?_⟩
        intro sym hsym
        rcases List.mem_cons.mp hsym with heq | hmem'
        · have hkey : te.1 = kv.1 := congrArg Prod.fst heq
          have : kv.1 ∈ unmatched.map Prod.fst :=
            List.mem_map.mpr ⟨te, hmem, hkey⟩
          exact absurd this ((alookup_eq_none_iff unmatched kv.1).mp hum)
        · exact hrest sym hmem'
      · rw [hum] at hte
        dsimp only at hte
        obtain ⟨hmem, hrest⟩ := ih _ _ te hte
        obtain ⟨hmem0, hne⟩ := mem_adelete hmem
        refine ⟨hmem0, ?_⟩
        intro sym hsym
        rcases List.mem_cons.mp hsym with heq | hmem'
        · exact absurd (congrArg Prod.fst heq) hne
        · exact hrest sym hmem'

theorem type_alias_pass2_go_mem (un : List (String × TypeAliasSpan))
    (synths : List (String × Symbol)) (remap : List (String × String)) :
    ∀ a ∈ (type_alias_pass2_go un synths remap).1,
      a ∈ synths ∨ ∃ te ∈ un, a.1 = te.2.id := by
  induction un generalizing synths remap with
  | nil =>
    intro a ha
    exact Or.inl ha
  | cons te rest ih =>
    intro a ha
    unfold type_alias_pass2_go at ha
    dsimp only at ha
    rcases ih _ _ a ha with h | ⟨te', hte', hid⟩
    · rcases mem_astore h with h' | h'
      · exact Or.inr ⟨te, List.mem_cons_self _ _, h'⟩
      · exact Or.inl h'
    · exact Or.inr ⟨te', List.mem_cons_of_mem _ hte', hid⟩

/-- Counterexample for C2: after full enrichment of a table holding a function
whose own declaration reference carries the function itself as container id,
the no-self-parent invariant fails — the reference-container pass copies the
container id without the self-id check the lexical pass has. -/
theorem reconciler_self_parent_counterexample :
    ¬ ∀ kv ∈ enrich_symbols_with_span exEmpty_data [("AAAA", exC2_sym)],
        kv.2.parent_id ≠ some kv.2.id := by
  decide

theorem resolve_and_assign_spec (remap : List (String × String)) (sym : Symbol)
    (psid : Option String) :
    (resolve_and_assign remap sym psid).id = sym.id ∧
    ((resolve_and_assign remap sym psid).parent_id = sym.parent_id ∨
      (resolve_and_assign remap sym psid).parent_id ≠ some sym.id) := by
  unfold resolve_and_assign
  dsimp only
  split_ifs with h
  · exact ⟨rfl, Or.inl rfl⟩
  · exact ⟨rfl, Or.inr h⟩

/-- C2 (amended): only the lexical parent-assignment pass rejects a resolved
parent equal to the symbol's own id — every symbol it processes keeps its id
and either keeps its previous `parent_id` or receives one different from its
own id. The reference-container pass and the type-alias pass copy container
and span parent ids without this check, so the table-wide invariant can fail
(see the counterexample). -/
theorem lexical_pass_no_self_parent (project_path : String)
    (spans : List (String × List (String × SourceSpan)))
    (remap : List (String × String)) (sym : Symbol) :
    (lexical_step project_path spans remap sym).id = sym.id ∧
    ((lexical_step project_path spans remap sym).parent_id = sym.parent_id ∨
      (lexical_step project_path spans remap sym).parent_id ≠ some sym.id) := by
  unfold lexical_step
  dsimp only
  repeat' split
  all_goals first
    | exact ⟨rfl, Or.inl rfl⟩
    | exact resolve_and_assign_spec _ _ _

/-- Counterexample for C7: the Reconciler's first pass deletes a pre-existing
symbol (one located outside the project path), refuting the claim that no
pre-existing symbol is removed from the table. -/
theorem reconciler_frame_counterexample :
    alookup [("X", exC7_sym)] "X" = some exC7_sym ∧
    alookup (enrich_symbols_with_span exEmpty_data [("X", exC7_sym)]) "X" = none := by
  decide

/-- C7 (amended): enrichment first deletes out-of-project (and unlocated)
symbols; a pre-existing symbol that survives the filter and is still present
at the end is modified only in `parent_id`, `body_location`, `scope` and the
aliased-type fields, and by appending synthetic call references — its id,
name, kind, declaration, definition, language, signature, return type and
type are unchanged and its reference list is only extended. The hypotheses
state the table is a dict (unique keys) and that content-addressed span ids
and alias-span ids do not collide with index symbol ids (alias span keys are
the spans' USR-derived ids, and a symbol under such an id is a `TypeAlias`),
which is how the source constructs them. -/
theorem reconciler_frame (cd : CompilationData) (symbols : List (String × Symbol))
    (k : String) (s s' : Symbol)
    (hnodup : (symbols.map Prod.fst).Nodup)
    (hfresh : ∀ fe ∈ cd.source_spans, ∀ ks ∈ fe.2, ¬ ks.2.id ∈ symbols.map Prod.fst)
    (htas : ∀ te ∈ cd.type_alias_spans, te.1 = te.2.id ∧
      ∀ s0, alookup symbols te.1 = some s0 → s0.kind = "TypeAlias")
    (hsurv : alookup (filter_symbols_by_project_path cd.project_path symbols) k = some s)
    (hfinal : alookup (enrich_symbols_with_span cd symbols) k = some s') :
    frame_preserved s s' := by
  unfold enrich_symbols_with_span at hfinal
  dsimp only at hfinal
  set S1 := filter_symbols_by_project_path cd.project_path symbols with hS1
  set S2 := assign_parent_ids_from_symbol_ref_container S1 with hS2
  set R3 := match_and_enrich cd.source_spans S2 with hR3
  set S4 := assign_parent_ids_lexically cd.project_path cd.source_spans R3.2 R3.1 with hS4
  set R5 := enrich_with_type_alias_data cd.type_alias_spans R3.2 S4 with hR5
  have hkpair : (k, s) ∈ symbols := (List.mem_filter.mp (alookup_eq_some_mem hsurv)).1
  have hkmem : k ∈ symbols.map Prod.fst := List.mem_map.mpr ⟨(k, s), hkpair, rfl⟩
  have h2 : alookup S2 k = some (ref_container_step s) := by
    rw [hS2, hS1]
    unfold assign_parent_ids_from_symbol_ref_container
    rw [alookup_map_values]
    rw [← hS1, hsurv]
    rfl
  obtain ⟨v3, hv3, hf3⟩ := match_pass1_lookup S2 cd.source_spans [] k _ h2
  have hfr1 : ∀ a ∈ (match_pass2 (match_pass1 cd.source_spans [] S2).2.2
      (match_pass1 cd.source_spans [] S2).2.1).1, a.1 ≠ k := by
    intro a ha hak
    unfold match_pass2 at ha
    rcases match_pass2_go_mem _ _ _ a ha with h | ⟨fe, hfe, ksp, hksp, hid⟩
    · exact absurd h (List.not_mem_nil a)
    · obtain ⟨fe0, hfe0, hsub⟩ := match_pass1_remaining_sub S2 cd.source_spans [] fe hfe ksp hksp
      refine hfresh fe0 hfe0 ksp hsub ?_
      rw [hid.symm.trans hak]
      exact hkmem
  have h3 : alookup R3.1 k = some v3 := by
    have hR31 : R3.1 = aupdate (match_pass1 cd.source_spans [] S2).1
        (match_pass2 (match_pass1 cd.source_spans [] S2).2.2
          (match_pass1 cd.source_spans [] S2).2.1).1 := by
      rw [hR3]
      rfl
    rw [hR31, alookup_aupdate_fresh _ _ _ hfr1]
    exact hv3
  have h4 : alookup S4 k =
      some (lexical_step cd.project_path cd.source_spans R3.2 v3) := by
    rw [hS4]
    unfold assign_parent_ids_lexically
    rw [alookup_map_values, h3]
    rfl
  obtain ⟨v5, hv5, hf5⟩ := type_alias_pass1_lookup S4 R3.2 cd.type_alias_spans k _ h4
  have hfr2 : ∀ a ∈ (type_alias_pass2 (type_alias_pass1 R3.2 cd.type_alias_spans S4).2.1
      (type_alias_pass1 R3.2 cd.type_alias_spans S4).2.2).1, a.1 ≠ k := by
    intro a ha hak
    unfold type_alias_pass2 at ha
    rcases type_alias_pass2_go_mem _ _ _ a ha with h | ⟨te, hte, hid⟩
    · exact absurd h (List.not_mem_nil a)
    · obtain ⟨hteU, hnoTA⟩ :=
        type_alias_pass1_unmatched S4 R3.2 cd.type_alias_spans te hte
      obtain ⟨hkeyid, hkind⟩ := htas te hteU
      have htek : te.1 = k := hkeyid.trans (hid.symm.trans hak)
      have hv4mem : (te.1, lexical_step cd.project_path cd.source_spans R3.2 v3) ∈ S4 := by
        rw [htek]
        exact alookup_eq_some_mem h4
      have hneTA := hnoTA _ hv4mem
      have hlookS : alookup symbols k = some s := alookup_eq_some_of_mem_nodup hkpair hnodup
      have hskind : s.kind = "TypeAlias" := hkind s (by rw [htek]; exact hlookS)
      have hfA : frame_preserved s (lexical_step cd.project_path cd.source_spans R3.2 v3) :=
        frame_preserved_trans (frame_preserved_trans (ref_container_step_frame s) hf3)
          (lexical_step_frame _ _ _ _)
      exact hneTA (hfA.2.2.1.trans hskind)
  have h6 : alookup R5.1 k = some v5 := by
    have hR51 : R5.1 = aupdate (type_alias_pass1 R3.2 cd.type_alias_spans S4).1
        (type_alias_pass2 (type_alias_pass1 R3.2 cd.type_alias_spans S4).2.1
          (type_alias_pass1 R3.2 cd.type_alias_spans S4).2.2).1 := by
      rw [hR5]
      rfl
    rw [hR51, alookup_aupdate_fresh _ _ _ hfr2]
    exact hv5
  obtain ⟨v7, hv7, hf7⟩ := static_calls_lookup cd.static_calls R5.1 k v5 h6
  have hvs : some v7 = some s' := hv7.symm.trans hfinal
  injection hvs with hvs
  rw [← hvs]
  exact frame_preserved_trans (frame_preserved_trans (frame_preserved_trans
    (frame_preserved_trans (ref_container_step_frame s) hf3)
    (lexical_step_frame _ _ _ _)) hf5) hf7

/-- Witness for C7 (amended): an ordinary in-project function passes through
the whole pipeline with its frame intact. -/
theorem reconciler_frame_witness :
    alookup (enrich_symbols_with_span exEmpty_data [("K", exK_sym)]) "K" = some exK_sym ∧
    frame_preserved exK_sym exK_sym :=
  ⟨by decide, reconciler_frame exEmpty_data [("K", exK_sym)] "K" exK_sym exK_sym
    (by decide) (by decide) (by decide) (by decide) (by decide)⟩

/-- Counterexample for C9: a located symbol outside the project path whose
kind is not `Namespace` survives the filter, because the code's membership
test `sym.kind in ("Namespace")` is a Python substring test and `"Name"` is a
substring of `"Namespace"`. -/
theorem filter_kind_substring_counterexample :
    exC9_sym.kind ≠ "Namespace" ∧
    main_loc exC9_sym = some ⟨"file:///other/b.c", 0, 0, 0, 1⟩ ∧
    py_startswith (uri_to_path "file:///other/b.c") "/proj" = false ∧
    alookup (filter_symbols_by_project_path "/proj" [("N", exC9_sym)]) "N" =
      some exC9_sym := by
  decide

/-- C9 (amended): the Reconciler's filter keeps exactly the symbols that have
a definition-or-declaration location and whose decoded file path starts with
the project path or whose kind is a substring of `"Namespace"` (the code's
`kind in ("Namespace")` is a string-containment test; of the genuine clangd
kinds only `Namespace` itself matches, but e.g. `"Name"` would too). Symbols
with neither location are deleted, Namespace symbols are kept wherever their
file lies. -/
theorem filter_symbols_spec (project_path : String) (symbols : List (String × Symbol))
    (kv : String × Symbol) :
    kv ∈ filter_symbols_by_project_path project_path symbols ↔
      kv ∈ symbols ∧ ∃ loc, main_loc kv.2 = some loc ∧
        (py_startswith (uri_to_path loc.file_uri) project_path = true ∨
          py_in_str kv.2.kind "Namespace" = true) := by
  unfold filter_symbols_by_project_path
  rw [List.mem_filter]
  apply and_congr_right
  intro _
  cases hl : main_loc kv.2 with
  | none =>
    dsimp only
    constructor
    · intro h
      cases h
    · rintro ⟨loc, hloc, -⟩
      cases hloc
  | some loc =>
    dsimp only
    rw [Bool.or_eq_true]
    constructor
    · intro h
      exact ⟨loc, rfl, h⟩
    · rintro ⟨loc', hl', h⟩
      cases hl'
      exact h

end ClangdGraphRag
